import Mathlib

/-!
Shallow embedding of the `lox-interpreter` repository (a tree-walking
interpreter for a Lox-like language, written in Rust) and proofs about it.

Modelling conventions:
* Source bytes (`&[u8]`) are `List Nat` of byte values; `&str`/`String` are
  Lean `String`.
* Rust `f32` numbers are modelled as exact rationals (`ℚ`).  Every concrete
  number appearing in a theorem is a small integer or small decimal, where
  `f32` arithmetic, parsing and formatting are exact, so the model and the
  Rust code agree on all inputs the theorems touch.
* `while` loops and recursive descent are modelled with an explicit fuel
  parameter so that every definition is executable; lemmas show the fuel
  bounds used by the drivers are sufficient where a claim needs it.
* A Rust panic (`unreachable!()`, `unwrap` on an error, out-of-fuel artifact)
  is modelled by a distinguished outcome, kept apart from `RuntimeError`.
-/

namespace Lox

/-- Byte predicate mirroring `u8::is_ascii_digit` (`b'0'..=b'9'`). -/
def isDigitB (c : Nat) : Bool := 48 ≤ c && c ≤ 57

/-- Byte predicate for the scanner's identifier-start arm
(`b'a'..=b'z' | b'A'..=b'Z' | b'_'`). -/
def isAlphaB (c : Nat) : Bool := (97 ≤ c && c ≤ 122) || (65 ≤ c && c ≤ 90) || c == 95

/-- Byte predicate for identifier continuation
(`is_ascii_alphanumeric() || == b'_'`). -/
def isIdentContB (c : Nat) : Bool :=
  (97 ≤ c && c ≤ 122) || (65 ≤ c && c ≤ 90) || isDigitB c || c == 95

/-- Decode an ASCII byte list to a string (`std::str::from_utf8(..).unwrap()`;
all bytes in the theorems are ASCII, where the two agree). -/
def strOfBytes (bs : List Nat) : String := String.mk (bs.map Char.ofNat)

/-- Encode a string to its byte list (all sources used are ASCII). -/
def strToBytes (s : String) : List Nat := s.toList.map Char.toNat

/-- Rust slice `src[a..b]`. -/
def slice (src : List Nat) (a b : Nat) : List Nat := (src.take b).drop a

/-- `TokenType` from `token.rs`. -/
inductive TokenType where
  | LEFT_PAREN | RIGHT_PAREN | LEFT_BRACE | RIGHT_BRACE
  | COMMA | DOT | MINUS | PLUS | SEMICOLON | SLASH | STAR
  | BANG | BANG_EQUAL | EQUAL | EQUAL_EQUAL
  | GREATER | GREATER_EQUAL | LESS | LESS_EQUAL
  | IDENTIFIER | STRING | NUMBER
  | AND | CLASS | ELSE | FALSE | FUN | FOR | IF | NIL | OR
  | PRINT | RETURN | SUPER | THIS | TRUE | VAR | WHILE
  | EOF
deriving DecidableEq, Repr

/-- The `Debug` rendering of a `TokenType` (used by `Display for Token`). -/
def ttName : TokenType → String
  | .LEFT_PAREN => "LEFT_PAREN" | .RIGHT_PAREN => "RIGHT_PAREN"
  | .LEFT_BRACE => "LEFT_BRACE" | .RIGHT_BRACE => "RIGHT_BRACE"
  | .COMMA => "COMMA" | .DOT => "DOT" | .MINUS => "MINUS" | .PLUS => "PLUS"
  | .SEMICOLON => "SEMICOLON" | .SLASH => "SLASH" | .STAR => "STAR"
  | .BANG => "BANG" | .BANG_EQUAL => "BANG_EQUAL"
  | .EQUAL => "EQUAL" | .EQUAL_EQUAL => "EQUAL_EQUAL"
  | .GREATER => "GREATER" | .GREATER_EQUAL => "GREATER_EQUAL"
  | .LESS => "LESS" | .LESS_EQUAL => "LESS_EQUAL"
  | .IDENTIFIER => "IDENTIFIER" | .STRING => "STRING" | .NUMBER => "NUMBER"
  | .AND => "AND" | .CLASS => "CLASS" | .ELSE => "ELSE" | .FALSE => "FALSE"
  | .FUN => "FUN" | .FOR => "FOR" | .IF => "IF" | .NIL => "NIL" | .OR => "OR"
  | .PRINT => "PRINT" | .RETURN => "RETURN" | .SUPER => "SUPER"
  | .THIS => "THIS" | .TRUE => "TRUE" | .VAR => "VAR" | .WHILE => "WHILE"
  | .EOF => "EOF"

/-- `try_get_keyword` from `token.rs`. -/
def tryGetKeyword (s : String) : Option TokenType :=
  if s = "and" then some .AND else if s = "class" then some .CLASS
  else if s = "else" then some .ELSE else if s = "false" then some .FALSE
  else if s = "for" then some .FOR else if s = "fun" then some .FUN
  else if s = "if" then some .IF else if s = "nil" then some .NIL
  else if s = "or" then some .OR else if s = "print" then some .PRINT
  else if s = "return" then some .RETURN else if s = "super" then some .SUPER
  else if s = "this" then some .THIS else if s = "true" then some .TRUE
  else if s = "var" then some .VAR else if s = "while" then some .WHILE
  else none

/-- `Token` from `token.rs`: a kind, the raw lexeme bytes, the decoded
literal payload, and the source line. -/
structure Token where
  tokenType : TokenType
  lexeme : List Nat
  literal : String
  line : Nat
deriving DecidableEq, Repr

/-- `Display for Token`: `"{:?} {} {}"`. -/
def tokenToString (t : Token) : String :=
  ttName t.tokenType ++ " " ++ strOfBytes t.lexeme ++ " " ++ t.literal

/-- Value of a digit string (the integer a run of ASCII digits denotes). -/
def digitsToNat (ds : List Nat) : Nat := ds.foldl (fun a d => a * 10 + (d - 48)) 0

/-- Exact value of a decimal literal `digits` or `digits.digits` given as
bytes.  Abstraction of `str::parse::<f32>`: the exact rational, without the
rounding to 24 bits of significand and the saturation to infinity that `f32`
performs.  The two agree exactly when the decimal value is representable in
`f32`; every integral value below `2 ^ 24` is.  Theorems therefore either use
concrete literals whose values are representable, or carry an explicit
`digitsToNat ds < 2 ^ 24` bound confining them to the agreement domain; no
theorem asserts anything about this function outside it. -/
def decimalToRat (bs : List Nat) : ℚ :=
  let ip := bs.takeWhile (fun c => c ≠ 46)
  let fp := (bs.dropWhile (fun c => c ≠ 46)).drop 1
  mkRat (digitsToNat ip * 10 ^ fp.length + digitsToNat fp) (10 ^ fp.length)

/-- Decimal rendering of a rational with the source's number formatting:
`fract() == 0` values print as `format!("{:.1}", v)` (one trailing `.0`),
others as `format!("{}", v)` (the shortest decimal expansion).  Agrees with
Rust `f32` formatting on values exactly representable in `f32` whose shortest
decimal is their exact expansion — in particular on every concrete value a
theorem mentions and on every integral value below `2 ^ 24`; theorems about
non-concrete values stay inside that domain. -/
def ratToDecimalString (q : ℚ) : String :=
  if q.den = 1 then toString q.num ++ ".0"
  else
    let k := (((List.range 64).filter fun k => 10 ^ k % q.den = 0).headD 64)
    let n := q.num * ((10 ^ k / q.den : Nat) : Int)
    let sgn := if n < 0 then "-" else ""
    let m := n.natAbs
    let fracStr := toString (m % 10 ^ k)
    let pad := String.mk (List.replicate (k - fracStr.length) '0')
    sgn ++ toString (m / 10 ^ k) ++ "." ++ pad ++ fracStr

/-- The literal payload `add_number` computes for the consumed bytes:
parse as a number, then render canonically. -/
def renderNumber (bs : List Nat) : String := ratToDecimalString (decimalToRat bs)

/-- `literal.parse::<f32>()` as used by `Parser::primary`. -/
def parseDecimal (s : String) : ℚ := decimalToRat (strToBytes s)

/-- The scanner state: `Scanner` fields from `scanner.rs` plus the `Lox`
error-reporting state it writes through (`has_error` flag, stderr lines). -/
structure ScanState where
  source : List Nat
  start : Nat
  current : Nat
  line : Nat
  tokens : List Token
  errLines : List String
  hasError : Bool
deriving DecidableEq, Repr

namespace ScanState

/-- `Scanner::is_at_end`. -/
def isAtEnd (s : ScanState) : Bool := s.source.length ≤ s.current

/-- `Scanner::peek`: the byte at `current`, or `b'\0'` at the end. -/
def peek (s : ScanState) : Nat := if s.isAtEnd then 0 else s.source.getD s.current 0

/-- `Scanner::peek_next`. -/
def peekNext (s : ScanState) : Nat :=
  if s.source.length ≤ s.current + 1 then 0 else s.source.getD (s.current + 1) 0

/-- `Scanner::advance` reads `source[current]` and increments `current`.
The Rust indexing would panic out of bounds; every call site is guarded so
that `current < source.length` there (see the bounds lemmas), and the read
is modelled with a default. -/
def advance (s : ScanState) : Nat × ScanState :=
  (s.source.getD s.current 0, { s with current := s.current + 1 })

/-- `Lox::report`: record the formatted stderr line and set the error flag. -/
def report (s : ScanState) (line : Nat) (whereStr msg : String) : ScanState :=
  { s with
    errLines := s.errLines ++ ["[line " ++ toString line ++ "] Error: " ++ whereStr ++ msg]
    hasError := true }

/-- `Scanner::add_token_with_literal`. -/
def addTokenLit (s : ScanState) (tt : TokenType) (lit : String) : ScanState :=
  { s with tokens := s.tokens ++ [⟨tt, slice s.source s.start s.current, lit, s.line⟩] }

/-- `Scanner::add_token`. -/
def addToken (s : ScanState) (tt : TokenType) : ScanState := s.addTokenLit tt "null"

/-- `Scanner::next_match`. -/
def nextMatch (s : ScanState) (expected : Nat) : Bool × ScanState :=
  if s.isAtEnd then (false, s)
  else if s.source.getD s.current 0 ≠ expected then (false, s)
  else (true, { s with current := s.current + 1 })

end ScanState

/-- The `while` loop of `add_string`: consume bytes until a closing quote or
the end of input, counting newlines. -/
def stringLoop : Nat → ScanState → ScanState
  | 0, s => s
  | fuel + 1, s =>
    if s.peek ≠ 34 && !s.isAtEnd then
      let s1 := if s.peek == 10 then { s with line := s.line + 1 } else s
      stringLoop fuel (s1.advance).2
    else s

/-- `Scanner::add_string`. -/
def addString (fuel : Nat) (s : ScanState) : ScanState :=
  let s := stringLoop fuel s
  if s.isAtEnd then s.report s.line "Unterminated string." ""
  else
    let s := (s.advance).2
    s.addTokenLit .STRING (strOfBytes (slice s.source (s.start + 1) (s.current - 1)))

/-- The digit-consuming `while` loops of `add_number`. -/
def digitsLoop : Nat → ScanState → ScanState
  | 0, s => s
  | fuel + 1, s =>
    if isDigitB s.peek then digitsLoop fuel (s.advance).2 else s

/-- `Scanner::add_number`. -/
def addNumber (fuel : Nat) (s : ScanState) : ScanState :=
  let s := digitsLoop fuel s
  let s :=
    if s.peek == 46 && isDigitB s.peekNext then digitsLoop fuel (s.advance).2
    else s
  s.addTokenLit .NUMBER (renderNumber (slice s.source s.start s.current))

/-- The `while` loop of `add_identifier_or_reserved_words`. -/
def identLoop : Nat → ScanState → ScanState
  | 0, s => s
  | fuel + 1, s =>
    if isIdentContB s.peek then identLoop fuel (s.advance).2 else s

/-- `Scanner::add_identifier_or_reserved_words`. -/
def addIdentifier (fuel : Nat) (s : ScanState) : ScanState :=
  let s := identLoop fuel s
  let text := strOfBytes (slice s.source s.start s.current)
  match tryGetKeyword text with
  | none => s.addTokenLit .IDENTIFIER text
  | some tt => s.addToken tt

/-- The line-comment `while` loop of `scan_token`'s `/` arm. -/
def commentLoop : Nat → ScanState → ScanState
  | 0, s => s
  | fuel + 1, s =>
    if !s.isAtEnd && s.peek ≠ 10 then commentLoop fuel (s.advance).2 else s

/-- The dispatch of `Scanner::scan_token` on the byte returned by
`advance`: `c` is that byte and `s` the state after the `advance`. -/
def scanTokenD (fuel : Nat) (c : Nat) (s : ScanState) : ScanState :=
  if c = 40 then s.addToken .LEFT_PAREN
  else if c = 41 then s.addToken .RIGHT_PAREN
  else if c = 123 then s.addToken .LEFT_BRACE
  else if c = 125 then s.addToken .RIGHT_BRACE
  else if c = 44 then s.addToken .COMMA
  else if c = 46 then s.addToken .DOT
  else if c = 45 then s.addToken .MINUS
  else if c = 43 then s.addToken .PLUS
  else if c = 59 then s.addToken .SEMICOLON
  else if c = 42 then s.addToken .STAR
  else if c = 33 then
    let p := s.nextMatch 61
    p.2.addToken (if p.1 then .BANG_EQUAL else .BANG)
  else if c = 61 then
    let p := s.nextMatch 61
    p.2.addToken (if p.1 then .EQUAL_EQUAL else .EQUAL)
  else if c = 60 then
    let p := s.nextMatch 61
    p.2.addToken (if p.1 then .LESS_EQUAL else .LESS)
  else if c = 62 then
    let p := s.nextMatch 61
    p.2.addToken (if p.1 then .GREATER_EQUAL else .GREATER)
  else if c = 47 then
    let p := s.nextMatch 47
    if p.1 then commentLoop fuel p.2 else p.2.addToken .SLASH
  else if c = 32 ∨ c = 9 ∨ c = 13 then s
  else if c = 10 then { s with line := s.line + 1 }
  else if c = 34 then addString fuel s
  else if isDigitB c then addNumber fuel s
  else if isAlphaB c then addIdentifier fuel s
  else s.report s.line "Unexpected character: " (String.mk [Char.ofNat c])

/-- `Scanner::scan_token`: `advance`, then dispatch on the byte read. -/
def scanToken (fuel : Nat) (s0 : ScanState) : ScanState :=
  scanTokenD fuel (s0.source.getD s0.current 0) { s0 with current := s0.current + 1 }

/-- The `while !is_at_end` loop of `scan_tokens`; each iteration resets
`start` to `current` and runs `scan_token`. -/
def scanTokensLoop : Nat → ScanState → ScanState
  | 0, s => s
  | fuel + 1, s =>
    if s.isAtEnd then s
    else scanTokensLoop fuel (scanToken (s.source.length + 1) { s with start := s.current })

/-- `Scanner::new`. -/
def initScan (src : List Nat) : ScanState := ⟨src, 0, 0, 1, [], [], false⟩

/-- `Scanner::scan_tokens`: run the loop, then append the terminal EOF token
carrying the final line number. -/
def scanTokens (src : List Nat) : ScanState :=
  let s := scanTokensLoop (src.length + 1) (initScan src)
  { s with tokens := s.tokens ++ [⟨.EOF, [], "null", s.line⟩] }

/-- Relation between scanner states before and after one scanning action:
the source is untouched, the cursor moves forward but never beyond the end
of the source, and any appended tokens are not EOF tokens. -/
def StepOK (s s' : ScanState) : Prop :=
  s'.source = s.source ∧
  s.current ≤ s'.current ∧
  s'.current ≤ max s.current s.source.length ∧
  ∃ ts, s'.tokens = s.tokens ++ ts ∧ ∀ t ∈ ts, t.tokenType ≠ .EOF

/-- `Object` from `parser.rs` (runtime values).  `f32` is modelled as `ℚ`. -/
inductive Object where
  | number (n : ℚ)
  | string (s : String)
  | boolean (b : Bool)
  | nil
deriving DecidableEq, Repr

/-- `Display for Object`: numbers with `fract() == 0` print as
`format!("{:.1}", n)`, others with the default rendering. -/
def objectToString : Object → String
  | .nil => "nil"
  | .number n => ratToDecimalString n
  | .string s => s
  | .boolean b => toString b

mutual

/-- `Expr` from `parser.rs`.  The Rust `Expr::Variable` constructor is named
`var` here because `variable` is reserved in Lean. -/
inductive Expr where
  | binary (left : Expr) (operator : Token) (right : Expr)
  | grouping (expression : Expr)
  | literal (value : Object)
  | unary (operator : Token) (right : Expr)
  | var (identifier : String)
  | assign (identifier : String) (value : Expr)
  | logical (left : Expr) (operator : Token) (right : Expr)
deriving Repr

/-- `Statement` from `parser.rs`; the Rust `If` and `While` helper structs
are inlined as constructor fields. -/
inductive Statement where
  | exprStmt (e : Expr)
  | printStmt (e : Expr)
  | ifStmt (condition : Expr) (thenBranch : Statement) (elseBranch : Option Statement)
  | whileStmt (condition : Expr) (body : Statement)
  | block (decls : List Declaration)
deriving Repr

/-- `Declaration` from `parser.rs`. -/
inductive Declaration where
  | varDecl (e : Expr)
  | statement (s : Statement)
deriving Repr

end

mutual

/-- `Display for Expr` (the parenthesized-prefix rendering). -/
def exprToString : Expr → String
  | .binary l op r =>
    "(" ++ strOfBytes op.lexeme ++ " " ++ exprToString l ++ " " ++ exprToString r ++ ")"
  | .grouping e => "(group " ++ exprToString e ++ ")"
  | .literal v => objectToString v
  | .unary op r => "(" ++ strOfBytes op.lexeme ++ " " ++ exprToString r ++ ")"
  | .var id => "variable " ++ id
  | .assign id v => "variable \"" ++ id ++ "\" = " ++ exprToString v
  | .logical l op r =>
    "(" ++ strOfBytes op.lexeme ++ " " ++ exprToString l ++ " " ++ exprToString r ++ ")"

end

mutual

/-- `Display for Statement`. -/
def stmtToString : Statement → String
  | .exprStmt e => exprToString e ++ ";"
  | .printStmt e => "print " ++ exprToString e ++ ";"
  | .ifStmt c t e =>
    "if (" ++ exprToString c ++ ")\n" ++ "then " ++ stmtToString t ++ "\n" ++
      (match e with
       | some s => "else " ++ stmtToString s ++ "\n"
       | none => "")
  | .whileStmt c b => "while (" ++ exprToString c ++ ")\n" ++ stmtToString b ++ "\n"
  | .block decls => declListToString decls

/-- `Display for Declaration`. -/
def declToString : Declaration → String
  | .varDecl e => exprToString e ++ ";"
  | .statement s => stmtToString s

/-- The `Block` arm of `Display for Statement` writes `" { {} }"` per
declaration. -/
def declListToString : List Declaration → String
  | [] => ""
  | d :: ds => " \x7b " ++ declToString d ++ " \x7d" ++ declListToString ds

end

/-- Parser state: the `Parser` fields from `parser.rs` plus the shared `Lox`
error flag and stderr lines. -/
structure PState where
  tokens : List Token
  current : Nat
  errLines : List String
  hasError : Bool
deriving Repr

/-- Sentinel used for the (never reached) out-of-range token accesses. -/
def eofSentinel : Token := ⟨.EOF, [], "null", 0⟩

namespace PState

/-- `Parser::peek`: `tokens[current]`. -/
def peekT (p : PState) : Token := p.tokens.getD p.current eofSentinel

/-- `Parser::previous`: `tokens[current - 1]`. -/
def previousT (p : PState) : Token := p.tokens.getD (p.current - 1) eofSentinel

/-- `Parser::is_at_end`. -/
def isAtEndP (p : PState) : Bool := p.peekT.tokenType == .EOF

/-- `Parser::advance`: increment `current` unless at the end, then return
`previous`. -/
def advanceT (p : PState) : Token × PState :=
  let p := if p.isAtEndP then p else { p with current := p.current + 1 }
  (p.previousT, p)

/-- `Parser::check`. -/
def check (p : PState) (tt : TokenType) : Bool :=
  if p.isAtEndP then false else p.peekT.tokenType == tt

/-- `Lox::report` as reached through `Lox::error` from the parser. -/
def reportP (p : PState) (line : Nat) (whereStr msg : String) : PState :=
  { p with
    errLines := p.errLines ++ ["[line " ++ toString line ++ "] Error: " ++ whereStr ++ msg]
    hasError := true }

/-- `Lox::error`: EOF tokens report `" at end "`, others `" at '{lexeme}' "`. -/
def errorAt (p : PState) (t : Token) (msg : String) : PState :=
  if t.tokenType = .EOF then p.reportP t.line " at end " msg
  else p.reportP t.line (" at '" ++ strOfBytes t.lexeme ++ "' ") msg

/-- `Parser::consume`: advance past the expected token, else report an error
(without advancing and without aborting). -/
def consume (p : PState) (tt : TokenType) (msg : String) : PState :=
  if p.check tt then (p.advanceT).2 else p.errorAt p.peekT msg

/-- `Parser::match_token`. -/
def matchToken (p : PState) (tts : List TokenType) : Bool × PState :=
  if tts.any p.check then (true, (p.advanceT).2) else (false, p)

end PState

/-- Parser failure: `abort65` models `Parser::primary`'s
`eprintln!("Unexpected error"); std::process::exit(65)`; `fuelOut` is the
fuel artifact (proved unreachable at the concrete inputs used). -/
inductive PFail where
  | abort65
  | fuelOut
deriving DecidableEq, Repr

mutual

/-- `Parser::expression`. -/
def expressionP : Nat → PState → Except PFail (Expr × PState)
  | 0, _ => .error .fuelOut
  | fuel + 1, p => assignmentP fuel p

/-- `Parser::assignment`. -/
def assignmentP : Nat → PState → Except PFail (Expr × PState)
  | 0, _ => .error .fuelOut
  | fuel + 1, p => do
    let (e, p) ← orP fuel p
    let m := p.matchToken [.EQUAL]
    if m.1 then
      let p := m.2
      let equal := p.previousT
      let (value, p) ← assignmentP fuel p
      match e with
      | .var id => .ok (.assign id value, p)
      | _ => .ok (e, p.errorAt equal "Invalid assignment target.")
    else .ok (e, p)

/-- `Parser::or_`. -/
def orP : Nat → PState → Except PFail (Expr × PState)
  | 0, _ => .error .fuelOut
  | fuel + 1, p => do
    let (e, p) ← andP fuel p
    orLoopP fuel e p

/-- The `while self.match_token(&[OR])` loop of `Parser::or_`. -/
def orLoopP : Nat → Expr → PState → Except PFail (Expr × PState)
  | 0, _, _ => .error .fuelOut
  | fuel + 1, e, p => do
    let m := p.matchToken [.OR]
    if m.1 then
      let p := m.2
      let op := p.previousT
      let (r, p) ← andP fuel p
      orLoopP fuel (.logical e op r) p
    else .ok (e, p)

/-- `Parser::and_`. -/
def andP : Nat → PState → Except PFail (Expr × PState)
  | 0, _ => .error .fuelOut
  | fuel + 1, p => do
    let (e, p) ← equalityP fuel p
    andLoopP fuel e p

/-- The `while self.match_token(&[AND])` loop of `Parser::and_`. -/
def andLoopP : Nat → Expr → PState → Except PFail (Expr × PState)
  | 0, _, _ => .error .fuelOut
  | fuel + 1, e, p => do
    let m := p.matchToken [.AND]
    if m.1 then
      let p := m.2
      let op := p.previousT
      let (r, p) ← equalityP fuel p
      andLoopP fuel (.logical e op r) p
    else .ok (e, p)

/-- `Parser::equality`. -/
def equalityP : Nat → PState → Except PFail (Expr × PState)
  | 0, _ => .error .fuelOut
  | fuel + 1, p => do
    let (e, p) ← comparisonP fuel p
    eqLoopP fuel e p

/-- The operator loop of `Parser::equality`. -/
def eqLoopP : Nat → Expr → PState → Except PFail (Expr × PState)
  | 0, _, _ => .error .fuelOut
  | fuel + 1, e, p => do
    let m := p.matchToken [.BANG_EQUAL, .EQUAL_EQUAL]
    if m.1 then
      let p := m.2
      let op := p.previousT
      let (r, p) ← comparisonP fuel p
      eqLoopP fuel (.binary e op r) p
    else .ok (e, p)

/-- `Parser::comparison`. -/
def comparisonP : Nat → PState → Except PFail (Expr × PState)
  | 0, _ => .error .fuelOut
  | fuel + 1, p => do
    let (e, p) ← termP fuel p
    cmpLoopP fuel e p

/-- The operator loop of `Parser::comparison`. -/
def cmpLoopP : Nat → Expr → PState → Except PFail (Expr × PState)
  | 0, _, _ => .error .fuelOut
  | fuel + 1, e, p => do
    let m := p.matchToken [.GREATER, .GREATER_EQUAL, .LESS, .LESS_EQUAL]
    if m.1 then
      let p := m.2
      let op := p.previousT
      let (r, p) ← termP fuel p
      cmpLoopP fuel (.binary e op r) p
    else .ok (e, p)

/-- `Parser::term`. -/
def termP : Nat → PState → Except PFail (Expr × PState)
  | 0, _ => .error .fuelOut
  | fuel + 1, p => do
    let (e, p) ← factorP fuel p
    termLoopP fuel e p

/-- The operator loop of `Parser::term`. -/
def termLoopP : Nat → Expr → PState → Except PFail (Expr × PState)
  | 0, _, _ => .error .fuelOut
  | fuel + 1, e, p => do
    let m := p.matchToken [.MINUS, .PLUS]
    if m.1 then
      let p := m.2
      let op := p.previousT
      let (r, p) ← factorP fuel p
      termLoopP fuel (.binary e op r) p
    else .ok (e, p)

/-- `Parser::factor`. -/
def factorP : Nat → PState → Except PFail (Expr × PState)
  | 0, _ => .error .fuelOut
  | fuel + 1, p => do
    let (e, p) ← unaryP fuel p
    factorLoopP fuel e p

/-- The operator loop of `Parser::factor`. -/
def factorLoopP : Nat → Expr → PState → Except PFail (Expr × PState)
  | 0, _, _ => .error .fuelOut
  | fuel + 1, e, p => do
    let m := p.matchToken [.SLASH, .STAR]
    if m.1 then
      let p := m.2
      let op := p.previousT
      let (r, p) ← unaryP fuel p
      factorLoopP fuel (.binary e op r) p
    else .ok (e, p)

/-- `Parser::unary`. -/
def unaryP : Nat → PState → Except PFail (Expr × PState)
  | 0, _ => .error .fuelOut
  | fuel + 1, p => do
    let m := p.matchToken [.BANG, .MINUS]
    if m.1 then
      let p := m.2
      let op := p.previousT
      let (r, p) ← unaryP fuel p
      .ok (.unary op r, p)
    else primaryP fuel p

/-- `Parser::primary`.  The final arm is the fatal
`eprintln!("Unexpected error"); exit(65)`. -/
def primaryP : Nat → PState → Except PFail (Expr × PState)
  | 0, _ => .error .fuelOut
  | fuel + 1, p => do
    let m := p.matchToken [.STRING]
    if m.1 then .ok (.literal (.string (m.2.previousT).literal), m.2)
    else
      let m := p.matchToken [.NUMBER]
      if m.1 then .ok (.literal (.number (parseDecimal (m.2.previousT).literal)), m.2)
      else
        let m := p.matchToken [.TRUE]
        if m.1 then .ok (.literal (.boolean true), m.2)
        else
          let m := p.matchToken [.FALSE]
          if m.1 then .ok (.literal (.boolean false), m.2)
          else
            let m := p.matchToken [.NIL]
            if m.1 then .ok (.literal .nil, m.2)
            else
              let m := p.matchToken [.IDENTIFIER]
              if m.1 then .ok (.var (strOfBytes (m.2.previousT).lexeme), m.2)
              else
                let m := p.matchToken [.LEFT_PAREN]
                if m.1 then do
                  let (e, p) ← expressionP fuel m.2
                  let p := p.consume .RIGHT_PAREN "Error: Unmatched parentheses."
                  .ok (.grouping e, p)
                else .error .abort65

/-- `Parser::declaration`. -/
def declarationP : Nat → PState → Except PFail (Declaration × PState)
  | 0, _ => .error .fuelOut
  | fuel + 1, p => do
    let m := p.matchToken [.VAR]
    if m.1 then
      let (e, p) ← vardeclP fuel m.2
      .ok (.varDecl e, p)
    else
      let (s, p) ← statementP fuel p
      .ok (.statement s, p)

/-- `Parser::vardecl`: desugars to `Unary(var, Variable)` or
`Unary(var, Binary(Variable, =, initializer))`. -/
def vardeclP : Nat → PState → Except PFail (Expr × PState)
  | 0, _ => .error .fuelOut
  | fuel + 1, p => do
    let varOp := p.previousT
    let (prim, p) ← primaryP fuel p
    let m := p.matchToken [.EQUAL]
    if !m.1 then
      let p := m.2.consume .SEMICOLON "Error: missing semicolon at end"
      .ok (.unary varOp prim, p)
    else
      let p := m.2
      let op := p.previousT
      let (e, p) ← expressionP fuel p
      let p := p.consume .SEMICOLON "Error: missing semicolon at end"
      .ok (.unary varOp (.binary prim op e), p)

/-- `Parser::statement`. -/
def statementP : Nat → PState → Except PFail (Statement × PState)
  | 0, _ => .error .fuelOut
  | fuel + 1, p => do
    let m := p.matchToken [.PRINT]
    if m.1 then do
      let (e, p) ← expressionP fuel m.2
      let p := p.consume .SEMICOLON "Error: missing semicolon at end"
      .ok (.printStmt e, p)
    else
      let m := p.matchToken [.LEFT_BRACE]
      if m.1 then do
        let (ds, p) ← blockLoopP fuel m.2
        .ok (.block ds, p)
      else
        let m := p.matchToken [.IF]
        if m.1 then ifP fuel m.2
        else
          let m := p.matchToken [.WHILE]
          if m.1 then whileP fuel m.2
          else
            let m := p.matchToken [.FOR]
            if m.1 then forP fuel m.2
            else do
              let (e, p) ← expressionP fuel p
              let p := p.consume .SEMICOLON "Error: missing semicolon at end"
              .ok (.exprStmt e, p)

/-- `Parser::block`: the declaration loop plus the closing-brace consume. -/
def blockLoopP : Nat → PState → Except PFail (List Declaration × PState)
  | 0, _ => .error .fuelOut
  | fuel + 1, p =>
    if !p.isAtEndP && !p.check .RIGHT_BRACE then do
      let (d, p) ← declarationP fuel p
      let (ds, p) ← blockLoopP fuel p
      .ok (d :: ds, p)
    else .ok ([], p.consume .RIGHT_BRACE "Expect '\x7d' after block.")

/-- `Parser::if_` (wrapped into the `IfStmt` statement by the caller). -/
def ifP : Nat → PState → Except PFail (Statement × PState)
  | 0, _ => .error .fuelOut
  | fuel + 1, p => do
    let p := p.consume .LEFT_PAREN "Expect '(' after 'if'."
    let (cond, p) ← expressionP fuel p
    let p := p.consume .RIGHT_PAREN "Expect ')' after if condition."
    let (thenB, p) ← statementP fuel p
    let m := p.matchToken [.ELSE]
    if m.1 then do
      let (elseB, p) ← statementP fuel m.2
      .ok (.ifStmt cond thenB (some elseB), p)
    else .ok (.ifStmt cond thenB none, p)

/-- `Parser::while_` (wrapped into the `WhileStmt` statement by the caller). -/
def whileP : Nat → PState → Except PFail (Statement × PState)
  | 0, _ => .error .fuelOut
  | fuel + 1, p => do
    let p := p.consume .LEFT_PAREN "Expect '(' after 'while'."
    let (cond, p) ← expressionP fuel p
    let p := p.consume .RIGHT_PAREN "Expect ')' after while condition."
    let (body, p) ← statementP fuel p
    .ok (.whileStmt cond body, p)

/-- `Parser::for_`: desugars into a while loop inside a block. -/
def forP : Nat → PState → Except PFail (Statement × PState)
  | 0, _ => .error .fuelOut
  | fuel + 1, p => do
    let p := p.consume .LEFT_PAREN "Expect '(' after 'for'."
    let m := p.matchToken [.SEMICOLON]
    let (initializer, p) ←
      if m.1 then pure (none, m.2)
      else do
        let (d, p) ← declarationP fuel m.2
        pure (some d, p)
    let m := p.matchToken [.SEMICOLON]
    let (condition, p) ←
      if !m.1 then expressionP fuel m.2
      else pure (Expr.literal (.boolean true), m.2)
    let p := p.consume .SEMICOLON "Expect ';' after loop condition."
    let m := p.matchToken [.RIGHT_PAREN]
    let (incr, p) ←
      if !m.1 then do
        let (e, p) ← expressionP fuel m.2
        pure (some e, p)
      else pure (none, m.2)
    let p := p.consume .RIGHT_PAREN "Expect ')' after for clause."
    let (body, p) ← statementP fuel p
    let blockVec :=
      match incr with
      | some e => [body, Statement.exprStmt e]
      | none => [body]
    let blk := Statement.block (blockVec.map Declaration.statement)
    let whileBody := Statement.whileStmt condition blk
    match initializer with
    | none => .ok (whileBody, p)
    | some d => .ok (.block [d, .statement whileBody], p)

end

/-- The `while !self.is_at_end()` loop of `Parser::parse`. -/
def parseLoopP : Nat → PState → Except PFail (List Declaration × PState)
  | 0, _ => .error .fuelOut
  | fuel + 1, p =>
    if !p.isAtEndP then do
      let (d, p) ← declarationP fuel p
      let (ds, p) ← parseLoopP fuel p
      .ok (d :: ds, p)
    else .ok ([], p)

/-- `Parser::new` plus `Parser::parse`, run on a scanner's output (the `Lox`
error state carries over).  The fuel bound is generous; the fuel-sufficiency
of concrete runs is visible in the computed results. -/
def parseProgram (s : ScanState) : Except PFail (List Declaration × PState) :=
  parseLoopP (50 * s.tokens.length + 50) ⟨s.tokens, 0, s.errLines, s.hasError⟩

/-- Evaluation failure: `runtime` is `RuntimeError` from `interpreter.rs`
(message and the operator token type); `panicked` models a Rust panic — an
`unreachable!()` branch, an `unwrap()` of an `Err`, or this embedding's fuel
artifact (checked unreachable wherever a claim depends on it).  A panic
aborts the process and is not a `RuntimeError`. -/
inductive Err where
  | runtime (message : String) (operator : TokenType)
  | panicked
deriving DecidableEq, Repr

/-- `Environment` from `environment.rs`: one scope's `HashMap` (modelled as
an association list with insert-replace, which is what a map is observably)
and the optional enclosing scope. -/
inductive Environment where
  | scope (map : List (String × Object)) (enclosing : Option Environment)
deriving Repr

/-- `HashMap::get` on the association-list model. -/
def lookupA : List (String × Object) → String → Option Object
  | [], _ => none
  | (k, v) :: rest, id => if k = id then some v else lookupA rest id

/-- `HashMap::insert` on the association-list model: replace the binding if
the key is present, else add it. -/
def insertA : List (String × Object) → String → Object → List (String × Object)
  | [], id, o => [(id, o)]
  | (k, v) :: rest, id, o =>
    if k = id then (id, o) :: rest else (k, v) :: insertA rest id o

/-- `Environment::new`: empty map, no enclosing scope. -/
def Environment.new : Environment := .scope [] none

/-- The `enclosing` field. -/
def Environment.enclosing : Environment → Option Environment
  | .scope _ e => e

/-- The `_map` field. -/
def Environment.map : Environment → List (String × Object)
  | .scope m _ => m

/-- `Environment::get`: look up locally, else in the enclosing chain, else
fail with "Undefined variable {identifier}.". -/
def Environment.get : Environment → String → Except Err Object
  | .scope m none, id =>
    match lookupA m id with
    | some v => .ok v
    | none => .error (.runtime ("Undefined variable " ++ id ++ ".") .VAR)
  | .scope m (some e), id =>
    match lookupA m id with
    | some v => .ok v
    | none =>
      match e.get id with
      | .ok v => .ok v
      | .error _ => .error (.runtime ("Undefined variable " ++ id ++ ".") .VAR)

/-- `Environment::set`: insert into the local map and, when an enclosing
scope exists, recursively into it as well.  It never fails. -/
def Environment.set : Environment → String → Object → Environment
  | .scope m none, id, o => .scope (insertA m id o) none
  | .scope m (some e), id, o => .scope (insertA m id o) (some (e.set id o))

/-- Exact rational addition, written with `mkRat` so that the kernel can
evaluate it (`a + b` on `ℚ`; `f32` addition agrees on every value a theorem
touches). -/
def ratAdd (a b : ℚ) : ℚ := mkRat (a.num * b.den + b.num * a.den) (a.den * b.den)

/-- Exact rational subtraction via `mkRat`. -/
def ratSub (a b : ℚ) : ℚ := mkRat (a.num * b.den - b.num * a.den) (a.den * b.den)

/-- Exact rational multiplication via `mkRat`. -/
def ratMul (a b : ℚ) : ℚ := mkRat (a.num * b.num) (a.den * b.den)

/-- Exact rational division via `mkRat` (the caller checks for a zero
divisor first, like the source). -/
def ratDiv (a b : ℚ) : ℚ :=
  if b.num < 0 then mkRat (-(a.num * b.den)) (a.den * b.num.natAbs)
  else mkRat (a.num * b.den) (a.den * b.num.natAbs)

/-- Kernel-friendly strict comparison on rationals (cross-multiplied). -/
def ratLt (a b : ℚ) : Bool := a.num * (b.den : Int) < b.num * (a.den : Int)

/-- Kernel-friendly non-strict comparison on rationals. -/
def ratLe (a b : ℚ) : Bool := a.num * (b.den : Int) ≤ b.num * (a.den : Int)

/-- `Interpreter::is_truthy`. -/
def isTruthy : Object → Bool
  | .nil => false
  | .boolean b => b
  | _ => true

mutual

/-- `Interpreter::ensure_literal`: the `while !matches!(Literal)` loop that
re-invokes `visit_print_stmt` until the expression is a literal.  The source
loop is unbounded; fuel exhaustion is modelled as a panic and is proved
unreachable where needed (`visit_print_stmt` always returns a literal). -/
def ensureLiteral : Nat → Environment → Expr → Except Err (Environment × Object)
  | _, env, .literal v => .ok (env, v)
  | 0, _, _ => .error .panicked
  | fuel + 1, env, e => do
    let (env, e') ← visitPrintStmt fuel env e
    ensureLiteral fuel env e'

/-- `Interpreter::visit_unary`. -/
def visitUnary : Nat → Environment → Token → Expr → Except Err (Environment × Object)
  | 0, _, _, _ => .error .panicked
  | fuel + 1, env, op, right => do
    let (env, rv) ← ensureLiteral fuel env right
    match op.tokenType with
    | .BANG => .ok (env, .boolean (!isTruthy rv))
    | .MINUS =>
      match rv with
      | .number n => .ok (env, .number (-n))
      | _ => .error (.runtime "Operand must be a number." op.tokenType)
    | _ => .error (.runtime "Invalid unary operator." op.tokenType)

/-- `Interpreter::visit_binary`. -/
def visitBinary : Nat → Environment → Token → Expr → Expr → Except Err (Environment × Object)
  | 0, _, _, _, _ => .error .panicked
  | fuel + 1, env, op, l, r => do
    let (env, lv) ← ensureLiteral fuel env l
    let (env, rv) ← ensureLiteral fuel env r
    match lv, rv with
    | .number a, .number b =>
      match op.tokenType with
      | .PLUS => .ok (env, .number (ratAdd a b))
      | .MINUS => .ok (env, .number (ratSub a b))
      | .STAR => .ok (env, .number (ratMul a b))
      | .SLASH =>
        if b = 0 then .error (.runtime "Division by zero." op.tokenType)
        else .ok (env, .number (ratDiv a b))
      | .LESS_EQUAL => .ok (env, .boolean (ratLe a b))
      | .LESS => .ok (env, .boolean (ratLt a b))
      | .EQUAL_EQUAL => .ok (env, .boolean (decide (a = b)))
      | .BANG_EQUAL => .ok (env, .boolean (decide (a ≠ b)))
      | .GREATER_EQUAL => .ok (env, .boolean (ratLe b a))
      | .GREATER => .ok (env, .boolean (ratLt b a))
      | _ => .error (.runtime "Invalid binary operator for numbers." op.tokenType)
    | .string a, .string b =>
      match op.tokenType with
      | .PLUS => .ok (env, .string (a ++ b))
      | .EQUAL_EQUAL => .ok (env, .boolean (a == b))
      | .BANG_EQUAL => .ok (env, .boolean (a != b))
      | _ => .error (.runtime "Invalid binary operator for strings." op.tokenType)
    | _, _ =>
      if op.tokenType = .EQUAL_EQUAL then .ok (env, .boolean false)
      else .error (.runtime "Invalid operands for binary operator." op.tokenType)

/-- `Interpreter::visit_grouping`. -/
def visitGrouping : Nat → Environment → Expr → Except Err (Environment × Object)
  | 0, _, _ => .error .panicked
  | fuel + 1, env, e => ensureLiteral fuel env e

/-- `Interpreter::visit_assignment`: evaluate the value, `Environment::set`
it, and return an `Assign` node wrapping the literal. -/
def visitAssignment : Nat → Environment → String → Expr → Except Err (Environment × Expr)
  | 0, _, _, _ => .error .panicked
  | fuel + 1, env, id, value => do
    let (env, o) ← ensureLiteral fuel env value
    .ok (env.set id o, .assign id (.literal o))

/-- `Interpreter::visit_expr_stmt`: only `Assign` and `Logical` expressions
are handled; every other expression statement hits `unreachable!()`, i.e.
panics. -/
def visitExprStmt : Nat → Environment → Expr → Except Err (Environment × Expr)
  | 0, _, _ => .error .panicked
  | fuel + 1, env, e =>
    match e with
    | .assign id value => visitAssignment fuel env id value
    | .logical l op r => visitLogical fuel env l op r
    | _ => .error .panicked

/-- `Interpreter::visit_logical`: `or` returns the left value if truthy,
`and` returns it if falsy; otherwise the right operand is evaluated. -/
def visitLogical : Nat → Environment → Expr → Token → Expr → Except Err (Environment × Expr)
  | 0, _, _, _, _ => .error .panicked
  | fuel + 1, env, l, op, r => do
    let (env, lv) ← ensureLiteral fuel env l
    if op.tokenType = .OR then
      if isTruthy lv then .ok (env, .literal lv)
      else visitPrintStmt fuel env r
    else if op.tokenType = .AND && !isTruthy lv then .ok (env, .literal lv)
    else visitPrintStmt fuel env r

/-- `Interpreter::visit_print_stmt`: one reduction step over an expression;
on success it always produces a `Literal` node. -/
def visitPrintStmt : Nat → Environment → Expr → Except Err (Environment × Expr)
  | 0, _, _ => .error .panicked
  | fuel + 1, env, e =>
    match e with
    | .literal v => .ok (env, .literal v)
    | .unary op r => do
      let (env, v) ← visitUnary fuel env op r
      .ok (env, .literal v)
    | .binary l op r => do
      let (env, v) ← visitBinary fuel env op l r
      .ok (env, .literal v)
    | .grouping g => do
      let (env, v) ← visitGrouping fuel env g
      .ok (env, .literal v)
    | .var id => do
      let v ← env.get id
      .ok (env, .literal v)
    | .assign id value => do
      let (env, a) ← visitAssignment fuel env id value
      match a with
      | .assign _ v => .ok (env, v)
      | _ => .error .panicked
    | .logical l op r => visitLogical fuel env l op r

end

/-- `Interpreter::visit_var_decl`: pattern-match the desugared declaration
(`Unary(var, Variable)` or `Unary(var, Binary(Variable, =, init))`); every
other shape hits `unreachable!()`. -/
def visitVarDecl (fuel : Nat) (env : Environment) (d : Expr) :
    Except Err (Environment × Expr) :=
  match d with
  | .unary _ right =>
    match right with
    | .var id => .ok (env.set id .nil, .var id)
    | .binary left _ rightE => do
      let (env, v) ← ensureLiteral fuel env rightE
      match left with
      | .var id => .ok (env.set id v, .var id)
      | _ => .error .panicked
    | _ => .error .panicked
  | _ => .error .panicked

/-- Interpreter-level state: the single environment owned by the
`Interpreter`, plus the lines printed during evaluation (the `println!`
inside `visit_while_stmt`). -/
structure IState where
  env : Environment
  out : List String

mutual

/-- `Interpreter::visit_stmt`. -/
def visitStmt : Nat → IState → Statement → Except Err (IState × List Expr)
  | 0, _, _ => .error .panicked
  | fuel + 1, st, stmt =>
    match stmt with
    | .printStmt e => do
      let (env, r) ← visitPrintStmt fuel st.env e
      .ok (⟨env, st.out⟩, [r])
    | .exprStmt e => do
      let (env, r) ← visitExprStmt fuel st.env e
      .ok (⟨env, st.out⟩, [r])
    | .ifStmt c t e => visitIfStmt fuel st c t e
    | .block decls => visitBlockStmt fuel st decls
    | .whileStmt c b => visitWhileStmt fuel st c b

/-- `Interpreter::visit_block_stmt`: run the declarations in order in the
same environment, concatenating their results. -/
def visitBlockStmt : Nat → IState → List Declaration → Except Err (IState × List Expr)
  | 0, _, _ => .error .panicked
  | fuel + 1, st, decls =>
    match decls with
    | [] => .ok (st, [])
    | .varDecl e :: rest => do
      let (env, r) ← visitVarDecl fuel st.env e
      let (st, rs) ← visitBlockStmt fuel ⟨env, st.out⟩ rest
      .ok (st, r :: rs)
    | .statement s :: rest => do
      let (st, rs1) ← visitStmt fuel st s
      let (st, rs2) ← visitBlockStmt fuel st rest
      .ok (st, rs1 ++ rs2)

/-- `Interpreter::visit_if_stmt`. -/
def visitIfStmt : Nat → IState → Expr → Statement → Option Statement →
    Except Err (IState × List Expr)
  | 0, _, _, _, _ => .error .panicked
  | fuel + 1, st, c, t, e => do
    let (env, cond) ← visitPrintStmt fuel st.env c
    let st : IState := ⟨env, st.out⟩
    match cond with
    | .literal v =>
      if isTruthy v then visitStmt fuel st t
      else
        match e with
        | none => .ok (st, [.literal .nil])
        | some s => visitStmt fuel st s
    | _ => .error (.runtime "Expected result of condition to be boolean or nil" .IF)

/-- `Interpreter::visit_while_stmt`: re-evaluate the condition each round
(the source `unwrap()`s its result, so a failing condition panics), run the
body while truthy, printing each produced expression, and return `[]`. -/
def visitWhileStmt : Nat → IState → Expr → Statement → Except Err (IState × List Expr)
  | 0, _, _, _ => .error .panicked
  | fuel + 1, st, c, b =>
    match visitPrintStmt fuel st.env c with
    | .error _ => .error .panicked
    | .ok (env, cond) =>
      let truthy := match cond with | .literal v => isTruthy v | _ => false
      if truthy then do
        let (st', exprs) ← visitStmt fuel ⟨env, st.out⟩ b
        let st' : IState := ⟨st'.env, st'.out ++ exprs.map exprToString⟩
        visitWhileStmt fuel st' c b
      else .ok (⟨env, st.out⟩, [])

end

/-- The declaration fold of `Interpreter::interpret`: each declaration's
results are collected in order, stopping at the first error. -/
def interpretDecls : Nat → IState → List Declaration → Except Err (IState × List Expr)
  | 0, _, _ => .error .panicked
  | fuel + 1, st, decls =>
    match decls with
    | [] => .ok (st, [])
    | .varDecl e :: rest => do
      let (env, r) ← visitVarDecl fuel st.env e
      let (st, rs) ← interpretDecls fuel ⟨env, st.out⟩ rest
      .ok (st, r :: rs)
    | .statement s :: rest => do
      let (st, rs1) ← visitStmt fuel st s
      let (st, rs2) ← interpretDecls fuel st rest
      .ok (st, rs1 ++ rs2)

/-- `Interpreter::new` + `Interpreter::interpret`: a single fresh
environment with no enclosing scope for the whole run. -/
def interpret (fuel : Nat) (decls : List Declaration) : Except Err (IState × List Expr) :=
  interpretDecls fuel ⟨Environment.new, []⟩ decls

/-- Observable outcome of one `Lox::run` invocation: the process exit code
with the stdout and stderr lines, or a panic (abnormal abort). -/
inductive Outcome where
  | exited (code : Nat) (stdoutLines : List String) (stderrLines : List String)
  | panicked
deriving DecidableEq, Repr

/-- `Lox::run` with the `tokenize` command (plus `main`'s empty-file early
return): print each token, then exit 65 if any error was reported. -/
def runTokenize (src : String) : Outcome :=
  if src = "" then .exited 0 ["EOF  null"] []
  else
    let s := scanTokens (strToBytes src)
    let out := s.tokens.map tokenToString
    .exited (if s.hasError then 65 else 0) out s.errLines

/-- `Lox::run` with the `evaluate` command: scan, parse, echo the parsed
declarations, interpret, print results (or the runtime error message and
exit 70), then exit 65 if a scan/parse error was flagged.  A parser abort
exits 65 (the stderr lines accumulated before the abort are not tracked on
that path; no theorem relies on them). -/
def runEvaluate (src : String) : Outcome :=
  if src = "" then .exited 0 ["EOF  null"] []
  else
    let s := scanTokens (strToBytes src)
    match parseProgram s with
    | .error .abort65 => .exited 65 [] ["Unexpected error"]
    | .error .fuelOut => .panicked
    | .ok (decls, p) =>
      let echo := decls.map declToString
      match interpret 1000 decls with
      | .error (.runtime msg _) => .exited 70 (echo ++ [msg]) p.errLines
      | .error .panicked => .panicked
      | .ok (st, exprs) =>
        .exited (if p.hasError then 65 else 0)
          (echo ++ st.out ++ exprs.map exprToString) p.errLines

/-- Projection of a successful parse to its declarations (used to state
concrete parse results without spelling out the whole parser state). -/
def parsedDecls (s : ScanState) : Option (List Declaration) :=
  match parseProgram s with
  | .ok (ds, _) => some ds
  | .error _ => none

/-- The `PLUS` token of line 1 (lexeme `+`). -/
def plusTok : Token := ⟨.PLUS, [43], "null", 1⟩

/-- The `STAR` token of line 1 (lexeme `*`). -/
def starTok : Token := ⟨.STAR, [42], "null", 1⟩

/-- The `SLASH` token of line 1 (lexeme `/`). -/
def slashTok : Token := ⟨.SLASH, [47], "null", 1⟩

/-- The `AND` keyword token of line 1 (lexeme `and`). -/
def andTok : Token := ⟨.AND, [97, 110, 100], "null", 1⟩

/-- The `OR` keyword token of line 1 (lexeme `or`). -/
def orTok : Token := ⟨.OR, [111, 114], "null", 1⟩

/-- The `EQUAL_EQUAL` token of line 1 (lexeme `==`). -/
def eqeqTok : Token := ⟨.EQUAL_EQUAL, [61, 61], "null", 1⟩

/-- The `BANG_EQUAL` token of line 1 (lexeme `!=`). -/
def bangeqTok : Token := ⟨.BANG_EQUAL, [33, 61], "null", 1⟩

/-- True exactly on the expression shapes `visit_expr_stmt` handles without
reaching `unreachable!()`. -/
def handledByExprStmt : Expr → Bool
  | .assign _ _ => true
  | .logical _ _ _ => true
  | _ => false

/-- True when both operands are `Number`s (the first `visit_binary` arm). -/
def bothNumbers : Object → Object → Bool
  | .number _, .number _ => true
  | _, _ => false

/-- True when both operands are `String`s (the second `visit_binary` arm). -/
def bothStrings : Object → Object → Bool
  | .string _, .string _ => true
  | _, _ => false

/-! ### Generic reduction lemmas for the `Except` monad -/

@[simp] theorem except_bind_ok {ε α β : Type} (a : α) (f : α → Except ε β) :
    (Except.ok a >>= f : Except ε β) = f a := rfl

@[simp] theorem except_bind_error {ε α β : Type} (e : ε) (f : α → Except ε β) :
    ((Except.error e : Except ε α) >>= f) = .error e := rfl

/-! ### Environment lemmas -/

theorem lookupA_insertA_self (m : List (String × Object)) (id : String) (o : Object) :
    lookupA (insertA m id o) id = some o := by
  induction m with
  | nil => simp [insertA, lookupA]
  | cons kv rest ih =>
    obtain ⟨k, v⟩ := kv
    by_cases h : k = id
    · simp [insertA, h, lookupA]
    · simp [insertA, h, lookupA, ih]

theorem get_set_self : ∀ (env : Environment) (id : String) (o : Object),
    (env.set id o).get id = .ok o
  | .scope m none, id, o => by
    simp [Environment.set, Environment.get, lookupA_insertA_self]
  | .scope m (some e), id, o => by
    simp [Environment.set, Environment.get, lookupA_insertA_self]

theorem set_enclosing_isNone : ∀ (env : Environment) (id : String) (o : Object),
    ((env.set id o).enclosing).isNone = (env.enclosing).isNone
  | .scope _ none, _, _ => rfl
  | .scope _ (some _), _, _ => rfl

/-! ### The environment stays a single flat scope

`Interpreter::new` builds one `Environment` with `enclosing == None`, and no
evaluator path ever builds another: every update goes through
`Environment::set`, which preserves the shape of the scope chain. -/

/-- True exactly on `Literal` expressions (the `ensure_literal` loop
guard). -/
def isLitE : Expr → Bool
  | .literal _ => true
  | _ => false

/-- Unfolding of `ensureLiteral` at positive fuel on a non-literal
expression. -/
theorem ensureLiteral_succ_notLit (f : Nat) (env : Environment) (e : Expr)
    (h : isLitE e = false) :
    ensureLiteral (f + 1) env e =
      (do
        let p ← visitPrintStmt f env e
        ensureLiteral f p.1 p.2) := by
  cases e <;> first | rfl | simp [isLitE] at h

/-- Unfolding of `ensureLiteral` at zero fuel on a non-literal
expression. -/
theorem ensureLiteral_zero_notLit (env : Environment) (e : Expr)
    (h : isLitE e = false) :
    ensureLiteral 0 env e = .error .panicked := by
  cases e <;> first | rfl | simp [isLitE] at h

theorem exprFlat : ∀ fuel : Nat,
    (∀ env e env' v, ensureLiteral fuel env e = .ok (env', v) →
      (Environment.enclosing env').isNone = (Environment.enclosing env).isNone) ∧
    (∀ env t e env' v, visitUnary fuel env t e = .ok (env', v) →
      (Environment.enclosing env').isNone = (Environment.enclosing env).isNone) ∧
    (∀ env t l r env' v, visitBinary fuel env t l r = .ok (env', v) →
      (Environment.enclosing env').isNone = (Environment.enclosing env).isNone) ∧
    (∀ env e env' v, visitGrouping fuel env e = .ok (env', v) →
      (Environment.enclosing env').isNone = (Environment.enclosing env).isNone) ∧
    (∀ env id value env' r, visitAssignment fuel env id value = .ok (env', r) →
      (Environment.enclosing env').isNone = (Environment.enclosing env).isNone) ∧
    (∀ env e env' r, visitExprStmt fuel env e = .ok (env', r) →
      (Environment.enclosing env').isNone = (Environment.enclosing env).isNone) ∧
    (∀ env l t r env' r', visitLogical fuel env l t r = .ok (env', r') →
      (Environment.enclosing env').isNone = (Environment.enclosing env).isNone) ∧
    (∀ env e env' r, visitPrintStmt fuel env e = .ok (env', r) →
      (Environment.enclosing env').isNone = (Environment.enclosing env).isNone) := by
  intro fuel
  induction fuel with
  | zero =>
    refine ⟨?_, ?_, ?_, ?_, ?_, ?_, ?_, ?_⟩
    · intro env e env' v h
      cases e with
      | literal w =>
        rw [show ensureLiteral 0 env (.literal w) = .ok (env, w) from rfl] at h
        cases h
        rfl
      | binary l t r => rw [ensureLiteral_zero_notLit env (.binary l t r) rfl] at h; simp at h
      | grouping g => rw [ensureLiteral_zero_notLit env (.grouping g) rfl] at h; simp at h
      | unary t r => rw [ensureLiteral_zero_notLit env (.unary t r) rfl] at h; simp at h
      | var id => rw [ensureLiteral_zero_notLit env (.var id) rfl] at h; simp at h
      | assign id vv => rw [ensureLiteral_zero_notLit env (.assign id vv) rfl] at h; simp at h
      | logical l t r => rw [ensureLiteral_zero_notLit env (.logical l t r) rfl] at h; simp at h
    · intro env t e env' v h; simp [visitUnary] at h
    · intro env t l r env' v h; simp [visitBinary] at h
    · intro env e env' v h; simp [visitGrouping] at h
    · intro env id value env' r h; simp [visitAssignment] at h
    · intro env e env' r h; simp [visitExprStmt] at h
    · intro env l t r env' r' h; simp [visitLogical] at h
    · intro env e env' r h; simp [visitPrintStmt] at h
  | succ f ih =>
    obtain ⟨ihEnsure, ihUnary, ihBinary, ihGrouping, ihAssign, _ihExpr, ihLogical, ihPrint⟩ := ih
    have noLit : ∀ e, isLitE e = false → ∀ env env' v,
        ensureLiteral (f + 1) env e = .ok (env', v) →
        (Environment.enclosing env').isNone = (Environment.enclosing env).isNone := by
      intro e hl env env' v h
      rw [ensureLiteral_succ_notLit f env e hl] at h
      cases hp : visitPrintStmt f env e with
      | error err => rw [hp] at h; simp at h
      | ok p =>
        obtain ⟨env1, e1⟩ := p
        rw [hp] at h
        simp at h
        exact (ihEnsure _ _ _ _ h).trans (ihPrint _ _ _ _ hp)
    have hEnsure : ∀ env e env' v, ensureLiteral (f + 1) env e = .ok (env', v) →
        (Environment.enclosing env').isNone = (Environment.enclosing env).isNone := by
      intro env e env' v h
      cases e with
      | literal w =>
        rw [show ensureLiteral (f + 1) env (.literal w) = .ok (env, w) from rfl] at h
        cases h
        rfl
      | binary l t r => exact noLit (.binary l t r) rfl env env' v h
      | grouping g => exact noLit (.grouping g) rfl env env' v h
      | unary t r => exact noLit (.unary t r) rfl env env' v h
      | var id => exact noLit (.var id) rfl env env' v h
      | assign id vv => exact noLit (.assign id vv) rfl env env' v h
      | logical l t r => exact noLit (.logical l t r) rfl env env' v h
    have hUnary : ∀ env t e env' v, visitUnary (f + 1) env t e = .ok (env', v) →
        (Environment.enclosing env').isNone = (Environment.enclosing env).isNone := by
      intro env t e env' v h
      simp only [visitUnary] at h
      cases he : ensureLiteral f env e with
      | error err => rw [he] at h; simp at h
      | ok p =>
        obtain ⟨env1, rv⟩ := p
        rw [he] at h
        simp at h
        split at h <;> (try split at h) <;>
          first
          | (cases h; exact ihEnsure _ _ _ _ he)
          | simp at h
    have hBinary : ∀ env t l r env' v, visitBinary (f + 1) env t l r = .ok (env', v) →
        (Environment.enclosing env').isNone = (Environment.enclosing env).isNone := by
      intro env t l r env' v h
      simp only [visitBinary] at h
      cases hl : ensureLiteral f env l with
      | error err => rw [hl] at h; simp at h
      | ok p =>
        obtain ⟨env1, lv⟩ := p
        rw [hl] at h
        simp at h
        cases hr : ensureLiteral f env1 r with
        | error err => rw [hr] at h; simp at h
        | ok q =>
          obtain ⟨env2, rv⟩ := q
          rw [hr] at h
          simp at h
          have step : (Environment.enclosing env2).isNone =
              (Environment.enclosing env).isNone :=
            (ihEnsure _ _ _ _ hr).trans (ihEnsure _ _ _ _ hl)
          clear hl hr ihEnsure ihUnary ihBinary ihGrouping ihAssign _ihExpr ihLogical ihPrint
          split at h <;> (try split at h) <;> (try split at h) <;>
            first
            | (cases h; exact step)
            | simp at h
    have hGrouping : ∀ env e env' v, visitGrouping (f + 1) env e = .ok (env', v) →
        (Environment.enclosing env').isNone = (Environment.enclosing env).isNone := by
      intro env e env' v h
      simp only [visitGrouping] at h
      exact ihEnsure _ _ _ _ h
    have hAssign : ∀ env id value env' r, visitAssignment (f + 1) env id value = .ok (env', r) →
        (Environment.enclosing env').isNone = (Environment.enclosing env).isNone := by
      intro env id value env' r h
      simp only [visitAssignment] at h
      cases he : ensureLiteral f env value with
      | error err => rw [he] at h; simp at h
      | ok p =>
        obtain ⟨env1, o⟩ := p
        rw [he] at h
        simp at h
        obtain ⟨h1, -⟩ := h
        subst h1
        exact (set_enclosing_isNone env1 id o).trans (ihEnsure _ _ _ _ he)
    have hLogical : ∀ env l t r env' r', visitLogical (f + 1) env l t r = .ok (env', r') →
        (Environment.enclosing env').isNone = (Environment.enclosing env).isNone := by
      intro env l t r env' r' h
      simp only [visitLogical] at h
      cases he : ensureLiteral f env l with
      | error err => rw [he] at h; simp at h
      | ok p =>
        obtain ⟨env1, lv⟩ := p
        rw [he] at h
        simp at h
        have base : (Environment.enclosing env1).isNone =
            (Environment.enclosing env).isNone := ihEnsure _ _ _ _ he
        split_ifs at h <;>
          first
          | (cases h; exact base)
          | exact (ihPrint _ _ _ _ h).trans base
    have hPrint : ∀ env e env' r, visitPrintStmt (f + 1) env e = .ok (env', r) →
        (Environment.enclosing env').isNone = (Environment.enclosing env).isNone := by
      intro env e env' r h
      cases e with
      | literal v =>
        rw [show visitPrintStmt (f + 1) env (.literal v) = .ok (env, .literal v) from rfl] at h
        cases h
        rfl
      | unary t rr =>
        simp only [visitPrintStmt] at h
        cases hu : visitUnary f env t rr with
        | error err => rw [hu] at h; simp at h
        | ok p =>
          obtain ⟨env1, v1⟩ := p
          rw [hu] at h
          simp at h
          obtain ⟨h1, -⟩ := h
          subst h1
          exact ihUnary _ _ _ _ _ hu
      | binary l t rr =>
        simp only [visitPrintStmt] at h
        cases hb : visitBinary f env t l rr with
        | error err => rw [hb] at h; simp at h
        | ok p =>
          obtain ⟨env1, v1⟩ := p
          rw [hb] at h
          simp at h
          obtain ⟨h1, -⟩ := h
          subst h1
          exact ihBinary _ _ _ _ _ _ hb
      | grouping g =>
        simp only [visitPrintStmt] at h
        cases hg : visitGrouping f env g with
        | error err => rw [hg] at h; simp at h
        | ok p =>
          obtain ⟨env1, v1⟩ := p
          rw [hg] at h
          simp at h
          obtain ⟨h1, -⟩ := h
          subst h1
          exact ihGrouping _ _ _ _ hg
      | var id =>
        simp only [visitPrintStmt] at h
        cases hg : env.get id with
        | error err => rw [hg] at h; simp at h
        | ok w =>
          rw [hg] at h
          simp at h
          obtain ⟨h1, -⟩ := h
          subst h1
          rfl
      | assign id value =>
        simp only [visitPrintStmt] at h
        cases ha : visitAssignment f env id value with
        | error err => rw [ha] at h; simp at h
        | ok p =>
          obtain ⟨env1, a⟩ := p
          rw [ha] at h
          simp at h
          split at h <;>
            first
            | (cases h; exact ihAssign _ _ _ _ _ ha)
            | simp at h
      | logical l t rr =>
        simp only [visitPrintStmt] at h
        exact ihLogical _ _ _ _ _ _ h
    have hExpr : ∀ env e env' r, visitExprStmt (f + 1) env e = .ok (env', r) →
        (Environment.enclosing env').isNone = (Environment.enclosing env).isNone := by
      intro env e env' r h
      cases e with
      | assign id value => simp only [visitExprStmt] at h; exact ihAssign _ _ _ _ _ h
      | logical l t rr => simp only [visitExprStmt] at h; exact ihLogical _ _ _ _ _ _ h
      | literal v => simp [visitExprStmt] at h
      | binary l t rr => simp [visitExprStmt] at h
      | grouping g => simp [visitExprStmt] at h
      | unary t rr => simp [visitExprStmt] at h
      | var id => simp [visitExprStmt] at h
    exact ⟨hEnsure, hUnary, hBinary, hGrouping, hAssign, hExpr, hLogical, hPrint⟩

theorem visitVarDecl_flat (fuel : Nat) (env : Environment) (d : Expr)
    (env' : Environment) (r : Expr) (h : visitVarDecl fuel env d = .ok (env', r)) :
    (Environment.enclosing env').isNone = (Environment.enclosing env).isNone := by
  cases d with
  | unary t right =>
    cases right with
    | var id =>
      simp only [visitVarDecl] at h
      cases h
      exact set_enclosing_isNone env id .nil
    | binary left t2 rightE =>
      simp only [visitVarDecl] at h
      cases he : ensureLiteral fuel env rightE with
      | error err => rw [he] at h; simp at h
      | ok p =>
        obtain ⟨env1, v⟩ := p
        rw [he] at h
        simp at h
        cases left <;> simp at h
        rename_i id
        obtain ⟨h1, -⟩ := h
        subst h1
        exact (set_enclosing_isNone env1 id v).trans ((exprFlat fuel).1 _ _ _ _ he)
    | literal v => simp [visitVarDecl] at h
    | grouping g => simp [visitVarDecl] at h
    | unary t2 r2 => simp [visitVarDecl] at h
    | assign id vv => simp [visitVarDecl] at h
    | logical l t2 r2 => simp [visitVarDecl] at h
  | literal v => simp [visitVarDecl] at h
  | binary l t r => simp [visitVarDecl] at h
  | grouping g => simp [visitVarDecl] at h
  | var id => simp [visitVarDecl] at h
  | assign id vv => simp [visitVarDecl] at h
  | logical l t r => simp [visitVarDecl] at h

theorem stmtFlat : ∀ fuel : Nat,
    (∀ st s st' rs, visitStmt fuel st s = .ok (st', rs) →
      (Environment.enclosing st'.env).isNone = (Environment.enclosing st.env).isNone) ∧
    (∀ st ds st' rs, visitBlockStmt fuel st ds = .ok (st', rs) →
      (Environment.enclosing st'.env).isNone = (Environment.enclosing st.env).isNone) ∧
    (∀ st c t e st' rs, visitIfStmt fuel st c t e = .ok (st', rs) →
      (Environment.enclosing st'.env).isNone = (Environment.enclosing st.env).isNone) ∧
    (∀ st c b st' rs, visitWhileStmt fuel st c b = .ok (st', rs) →
      (Environment.enclosing st'.env).isNone = (Environment.enclosing st.env).isNone) := by
  intro fuel
  induction fuel with
  | zero =>
    refine ⟨?_, ?_, ?_, ?_⟩ <;> intro st
    · intro s st' rs h; simp [visitStmt] at h
    · intro ds st' rs h; simp [visitBlockStmt] at h
    · intro c t e st' rs h; simp [visitIfStmt] at h
    · intro c b st' rs h; simp [visitWhileStmt] at h
  | succ f ih =>
    obtain ⟨ihStmt, ihBlock, ihIf, ihWhile⟩ := ih
    obtain ⟨eEns, eUn, eBin, eGrp, eAsg, eExp, eLog, ePrt⟩ := exprFlat f
    have hStmt : ∀ st s st' rs, visitStmt (f + 1) st s = .ok (st', rs) →
        (Environment.enclosing st'.env).isNone = (Environment.enclosing st.env).isNone := by
      intro st s st' rs h
      cases s with
      | printStmt e =>
        simp only [visitStmt] at h
        cases hp : visitPrintStmt f st.env e with
        | error err => rw [hp] at h; simp at h
        | ok p =>
          obtain ⟨env1, r1⟩ := p
          rw [hp] at h
          simp at h
          obtain ⟨h1, -⟩ := h
          subst h1
          exact ePrt _ _ _ _ hp
      | exprStmt e =>
        simp only [visitStmt] at h
        cases hp : visitExprStmt f st.env e with
        | error err => rw [hp] at h; simp at h
        | ok p =>
          obtain ⟨env1, r1⟩ := p
          rw [hp] at h
          simp at h
          obtain ⟨h1, -⟩ := h
          subst h1
          exact eExp _ _ _ _ hp
      | ifStmt c t e => simp only [visitStmt] at h; exact ihIf _ _ _ _ _ _ h
      | block ds => simp only [visitStmt] at h; exact ihBlock _ _ _ _ h
      | whileStmt c b => simp only [visitStmt] at h; exact ihWhile _ _ _ _ _ h
    have hBlock : ∀ st ds st' rs, visitBlockStmt (f + 1) st ds = .ok (st', rs) →
        (Environment.enclosing st'.env).isNone = (Environment.enclosing st.env).isNone := by
      intro st ds st' rs h
      cases ds with
      | nil =>
        simp only [visitBlockStmt] at h
        cases h
        rfl
      | cons d rest =>
        cases d with
        | varDecl e =>
          simp only [visitBlockStmt] at h
          cases hv : visitVarDecl f st.env e with
          | error err => rw [hv] at h; simp at h
          | ok p =>
            obtain ⟨env1, r1⟩ := p
            rw [hv] at h
            simp at h
            cases hb : visitBlockStmt f ⟨env1, st.out⟩ rest with
            | error err => rw [hb] at h; simp at h
            | ok q =>
              obtain ⟨st2, rs2⟩ := q
              rw [hb] at h
              simp at h
              obtain ⟨h1, -⟩ := h
              subst h1
              exact (ihBlock _ _ _ _ hb).trans (visitVarDecl_flat _ _ _ _ _ hv)
        | statement s =>
          simp only [visitBlockStmt] at h
          cases hs : visitStmt f st s with
          | error err => rw [hs] at h; simp at h
          | ok p =>
            obtain ⟨st1, rs1⟩ := p
            rw [hs] at h
            simp at h
            cases hb : visitBlockStmt f st1 rest with
            | error err => rw [hb] at h; simp at h
            | ok q =>
              obtain ⟨st2, rs2⟩ := q
              rw [hb] at h
              simp at h
              obtain ⟨h1, -⟩ := h
              subst h1
              exact (ihBlock _ _ _ _ hb).trans (ihStmt _ _ _ _ hs)
    have hIf : ∀ st c t e st' rs, visitIfStmt (f + 1) st c t e = .ok (st', rs) →
        (Environment.enclosing st'.env).isNone = (Environment.enclosing st.env).isNone := by
      intro st c t e st' rs h
      simp only [visitIfStmt] at h
      cases hp : visitPrintStmt f st.env c with
      | error err => rw [hp] at h; simp at h
      | ok p =>
        obtain ⟨env1, cond⟩ := p
        rw [hp] at h
        simp at h
        have base : (Environment.enclosing env1).isNone =
            (Environment.enclosing st.env).isNone := ePrt _ _ _ _ hp
        cases cond <;> simp at h
        rename_i v
        by_cases ht : isTruthy v = true
        · rw [if_pos ht] at h
          exact (ihStmt _ _ _ _ h).trans base
        · rw [if_neg ht] at h
          cases e with
          | none =>
            simp at h
            obtain ⟨h1, -⟩ := h
            subst h1
            exact base
          | some s => exact (ihStmt _ _ _ _ h).trans base
    have hWhile : ∀ st c b st' rs, visitWhileStmt (f + 1) st c b = .ok (st', rs) →
        (Environment.enclosing st'.env).isNone = (Environment.enclosing st.env).isNone := by
      intro st c b st' rs h
      simp only [visitWhileStmt] at h
      cases hp : visitPrintStmt f st.env c with
      | error err => rw [hp] at h; simp at h
      | ok p =>
        obtain ⟨env1, cond⟩ := p
        rw [hp] at h
        simp at h
        have base : (Environment.enclosing env1).isNone =
            (Environment.enclosing st.env).isNone := ePrt _ _ _ _ hp
        split at h
        · cases hs : visitStmt f ⟨env1, st.out⟩ b with
          | error err => rw [hs] at h; simp at h
          | ok q =>
            obtain ⟨st2, exprs⟩ := q
            rw [hs] at h
            simp at h
            have w1 := ihWhile _ _ _ _ _ h
            have w2 := ihStmt _ _ _ _ hs
            exact (w1.trans w2).trans base
        · cases h
          exact base
    exact ⟨hStmt, hBlock, hIf, hWhile⟩

theorem interpretDecls_flat : ∀ (fuel : Nat) (st : IState) (ds : List Declaration)
    (st' : IState) (rs : List Expr), interpretDecls fuel st ds = .ok (st', rs) →
    (Environment.enclosing st'.env).isNone = (Environment.enclosing st.env).isNone := by
  intro fuel
  induction fuel with
  | zero => intro st ds st' rs h; simp [interpretDecls] at h
  | succ f ih =>
    intro st ds st' rs h
    cases ds with
    | nil =>
      simp only [interpretDecls] at h
      cases h
      rfl
    | cons d rest =>
      cases d with
      | varDecl e =>
        simp only [interpretDecls] at h
        cases hv : visitVarDecl f st.env e with
        | error err => rw [hv] at h; simp at h
        | ok p =>
          obtain ⟨env1, r1⟩ := p
          rw [hv] at h
          simp at h
          cases hb : interpretDecls f ⟨env1, st.out⟩ rest with
          | error err => rw [hb] at h; simp at h
          | ok q =>
            obtain ⟨st2, rs2⟩ := q
            rw [hb] at h
            simp at h
            obtain ⟨h1, -⟩ := h
            subst h1
            exact (ih _ _ _ _ hb).trans (visitVarDecl_flat _ _ _ _ _ hv)
      | statement s =>
        simp only [interpretDecls] at h
        cases hs : visitStmt f st s with
        | error err => rw [hs] at h; simp at h
        | ok p =>
          obtain ⟨st1, rs1⟩ := p
          rw [hs] at h
          simp at h
          cases hb : interpretDecls f st1 rest with
          | error err => rw [hb] at h; simp at h
          | ok q =>
            obtain ⟨st2, rs2⟩ := q
            rw [hb] at h
            simp at h
            obtain ⟨h1, -⟩ := h
            subst h1
            exact (ih _ _ _ _ hb).trans ((stmtFlat f).1 _ _ _ _ hs)

/-! ### Scanner lemmas -/

theorem peek_eq_getD (s : ScanState) : s.peek = s.source.getD s.current 0 := by
  by_cases h : s.source.length ≤ s.current
  · rw [List.getD_eq_default _ _ h]
    simp [ScanState.peek, ScanState.isAtEnd, h]
  · simp [ScanState.peek, ScanState.isAtEnd, h]

theorem stepOK_rfl (s : ScanState) : StepOK s s :=
  ⟨rfl, le_rfl, le_max_left _ _, ⟨[], by simp, by simp⟩⟩

theorem stepOK_trans {s1 s2 s3 : ScanState} (h1 : StepOK s1 s2) (h2 : StepOK s2 s3) :
    StepOK s1 s3 := by
  obtain ⟨hsrc1, hle1, hmax1, ts1, htok1, hts1⟩ := h1
  obtain ⟨hsrc2, hle2, hmax2, ts2, htok2, hts2⟩ := h2
  refine ⟨hsrc2.trans hsrc1, hle1.trans hle2, ?_, ⟨ts1 ++ ts2, ?_, ?_⟩⟩
  · rw [hsrc1] at hmax2
    omega
  · rw [htok2, htok1, List.append_assoc]
  · intro t ht
    rcases List.mem_append.mp ht with hm | hm
    · exact hts1 t hm
    · exact hts2 t hm

theorem stepOK_addTokenLit (s : ScanState) (tt : TokenType) (lit : String)
    (h : tt ≠ .EOF) : StepOK s (s.addTokenLit tt lit) :=
  ⟨rfl, le_rfl, le_max_left _ _,
    ⟨[⟨tt, slice s.source s.start s.current, lit, s.line⟩], rfl, by simpa using h⟩⟩

theorem stepOK_report (s : ScanState) (l : Nat) (w m : String) :
    StepOK s (s.report l w m) :=
  ⟨rfl, le_rfl, le_max_left _ _, ⟨[], by simp [ScanState.report], by simp⟩⟩

theorem stepOK_setLine (s : ScanState) : StepOK s { s with line := s.line + 1 } :=
  ⟨rfl, le_rfl, le_max_left _ _, ⟨[], by simp, by simp⟩⟩

theorem stepOK_advance {s : ScanState} (h : s.current < s.source.length) :
    StepOK s (s.advance).2 :=
  ⟨rfl, Nat.le_succ _, by simp [ScanState.advance]; omega,
    ⟨[], by simp [ScanState.advance], by simp⟩⟩

theorem isDigitB_zero : isDigitB 0 = false := rfl

theorem stepOK_digitsLoop : ∀ (f : Nat) (s : ScanState), StepOK s (digitsLoop f s) := by
  intro f
  induction f with
  | zero => intro s; exact stepOK_rfl s
  | succ g ih =>
    intro s
    rw [digitsLoop]
    split
    · rename_i h
      have hlt : s.current < s.source.length := by
        by_contra hc
        push_neg at hc
        rw [peek_eq_getD, List.getD_eq_default _ _ hc] at h
        simp [isDigitB] at h
      exact stepOK_trans (stepOK_advance hlt) (ih _)
    · exact stepOK_rfl s

theorem stepOK_identLoop : ∀ (f : Nat) (s : ScanState), StepOK s (identLoop f s) := by
  intro f
  induction f with
  | zero => intro s; exact stepOK_rfl s
  | succ g ih =>
    intro s
    rw [identLoop]
    split
    · rename_i h
      have hlt : s.current < s.source.length := by
        by_contra hc
        push_neg at hc
        rw [peek_eq_getD, List.getD_eq_default _ _ hc] at h
        simp [isIdentContB, isDigitB] at h
      exact stepOK_trans (stepOK_advance hlt) (ih _)
    · exact stepOK_rfl s

theorem stepOK_commentLoop : ∀ (f : Nat) (s : ScanState), StepOK s (commentLoop f s) := by
  intro f
  induction f with
  | zero => intro s; exact stepOK_rfl s
  | succ g ih =>
    intro s
    rw [commentLoop]
    split
    · rename_i h
      simp only [Bool.and_eq_true, Bool.not_eq_true'] at h
      have hlt : s.current < s.source.length := by
        have := h.1
        simp [ScanState.isAtEnd] at this
        omega
      exact stepOK_trans (stepOK_advance hlt) (ih _)
    · exact stepOK_rfl s

theorem stepOK_stringLoop : ∀ (f : Nat) (s : ScanState), StepOK s (stringLoop f s) := by
  intro f
  induction f with
  | zero => intro s; exact stepOK_rfl s
  | succ g ih =>
    intro s
    rw [stringLoop]
    split
    · rename_i h
      simp only [Bool.and_eq_true, Bool.not_eq_true'] at h
      have hlt : s.current < s.source.length := by
        have := h.2
        simp [ScanState.isAtEnd] at this
        omega
      split
      · exact stepOK_trans (stepOK_setLine s) (stepOK_trans (stepOK_advance hlt) (ih _))
      · exact stepOK_trans (stepOK_advance hlt) (ih _)
    · exact stepOK_rfl s

theorem stepOK_nextMatch (s : ScanState) (e : Nat) : StepOK s (s.nextMatch e).2 := by
  unfold ScanState.nextMatch
  split_ifs with h1 h2
  · exact stepOK_rfl s
  · exact stepOK_rfl s
  · have hlt : s.current < s.source.length := by
      simp [ScanState.isAtEnd] at h1
      omega
    exact stepOK_advance hlt

theorem stepOK_addString (f : Nat) (s : ScanState) : StepOK s (addString f s) := by
  simp only [addString]
  split
  · exact stepOK_trans (stepOK_stringLoop f s) (stepOK_report _ _ _ _)
  · rename_i hend
    have hlt : (stringLoop f s).current < (stringLoop f s).source.length := by
      simp [ScanState.isAtEnd] at hend
      omega
    exact stepOK_trans (stepOK_stringLoop f s)
      (stepOK_trans (stepOK_advance hlt) (stepOK_addTokenLit _ _ _ (by decide)))

theorem stepOK_addNumber (f : Nat) (s : ScanState) : StepOK s (addNumber f s) := by
  simp only [addNumber]
  split
  · rename_i h
    simp only [Bool.and_eq_true, beq_iff_eq] at h
    have hlt : (digitsLoop f s).current < (digitsLoop f s).source.length := by
      by_contra hc
      push_neg at hc
      rw [peek_eq_getD, List.getD_eq_default _ _ hc] at h
      omega
    exact stepOK_trans (stepOK_digitsLoop f s)
      (stepOK_trans (stepOK_advance hlt)
        (stepOK_trans (stepOK_digitsLoop f _) (stepOK_addTokenLit _ _ _ (by decide))))
  · exact stepOK_trans (stepOK_digitsLoop f s) (stepOK_addTokenLit _ _ _ (by decide))

theorem tryGetKeyword_ne_eof (str : String) (tt : TokenType)
    (h : tryGetKeyword str = some tt) : tt ≠ .EOF := by
  intro he
  subst he
  unfold tryGetKeyword at h
  by_cases h0 : str = "and"
  · rw [if_pos h0] at h
    simp at h
  rw [if_neg h0] at h
  by_cases h1 : str = "class"
  · rw [if_pos h1] at h
    simp at h
  rw [if_neg h1] at h
  by_cases h2 : str = "else"
  · rw [if_pos h2] at h
    simp at h
  rw [if_neg h2] at h
  by_cases h3 : str = "false"
  · rw [if_pos h3] at h
    simp at h
  rw [if_neg h3] at h
  by_cases h4 : str = "for"
  · rw [if_pos h4] at h
    simp at h
  rw [if_neg h4] at h
  by_cases h5 : str = "fun"
  · rw [if_pos h5] at h
    simp at h
  rw [if_neg h5] at h
  by_cases h6 : str = "if"
  · rw [if_pos h6] at h
    simp at h
  rw [if_neg h6] at h
  by_cases h7 : str = "nil"
  · rw [if_pos h7] at h
    simp at h
  rw [if_neg h7] at h
  by_cases h8 : str = "or"
  · rw [if_pos h8] at h
    simp at h
  rw [if_neg h8] at h
  by_cases h9 : str = "print"
  · rw [if_pos h9] at h
    simp at h
  rw [if_neg h9] at h
  by_cases h10 : str = "return"
  · rw [if_pos h10] at h
    simp at h
  rw [if_neg h10] at h
  by_cases h11 : str = "super"
  · rw [if_pos h11] at h
    simp at h
  rw [if_neg h11] at h
  by_cases h12 : str = "this"
  · rw [if_pos h12] at h
    simp at h
  rw [if_neg h12] at h
  by_cases h13 : str = "true"
  · rw [if_pos h13] at h
    simp at h
  rw [if_neg h13] at h
  by_cases h14 : str = "var"
  · rw [if_pos h14] at h
    simp at h
  rw [if_neg h14] at h
  by_cases h15 : str = "while"
  · rw [if_pos h15] at h
    simp at h
  rw [if_neg h15] at h
  exact Option.noConfusion h

theorem stepOK_addIdentifier (f : Nat) (s : ScanState) : StepOK s (addIdentifier f s) := by
  simp only [addIdentifier]
  split
  · exact stepOK_trans (stepOK_identLoop f s) (stepOK_addTokenLit _ _ _ (by decide))
  · rename_i tt heq
    exact stepOK_trans (stepOK_identLoop f s)
      (stepOK_addTokenLit _ _ _ (tryGetKeyword_ne_eof _ _ heq))

theorem stepOK_addToken (s : ScanState) (tt : TokenType) (h : tt ≠ .EOF) :
    StepOK s (s.addToken tt) := stepOK_addTokenLit s tt "null" h

theorem ite_tokenType_ne_eof {c : Prop} [Decidable c] {a b : TokenType}
    (ha : a ≠ .EOF) (hb : b ≠ .EOF) : (if c then a else b) ≠ .EOF := by
  split
  · exact ha
  · exact hb

theorem scanTokenD_step (f c : Nat) (s : ScanState) : StepOK s (scanTokenD f c s) := by
  delta scanTokenD
  simp only []
  by_cases h0 : c = 40
  · rw [if_pos h0]
    exact stepOK_addToken _ _ (by decide)
  rw [if_neg h0]
  by_cases h1 : c = 41
  · rw [if_pos h1]
    exact stepOK_addToken _ _ (by decide)
  rw [if_neg h1]
  by_cases h2 : c = 123
  · rw [if_pos h2]
    exact stepOK_addToken _ _ (by decide)
  rw [if_neg h2]
  by_cases h3 : c = 125
  · rw [if_pos h3]
    exact stepOK_addToken _ _ (by decide)
  rw [if_neg h3]
  by_cases h4 : c = 44
  · rw [if_pos h4]
    exact stepOK_addToken _ _ (by decide)
  rw [if_neg h4]
  by_cases h5 : c = 46
  · rw [if_pos h5]
    exact stepOK_addToken _ _ (by decide)
  rw [if_neg h5]
  by_cases h6 : c = 45
  · rw [if_pos h6]
    exact stepOK_addToken _ _ (by decide)
  rw [if_neg h6]
  by_cases h7 : c = 43
  · rw [if_pos h7]
    exact stepOK_addToken _ _ (by decide)
  rw [if_neg h7]
  by_cases h8 : c = 59
  · rw [if_pos h8]
    exact stepOK_addToken _ _ (by decide)
  rw [if_neg h8]
  by_cases h9 : c = 42
  · rw [if_pos h9]
    exact stepOK_addToken _ _ (by decide)
  rw [if_neg h9]
  by_cases h10 : c = 33
  · rw [if_pos h10]
    exact stepOK_trans (stepOK_nextMatch _ _)
      (stepOK_addToken _ _ (ite_tokenType_ne_eof (by decide) (by decide)))
  rw [if_neg h10]
  by_cases h11 : c = 61
  · rw [if_pos h11]
    exact stepOK_trans (stepOK_nextMatch _ _)
      (stepOK_addToken _ _ (ite_tokenType_ne_eof (by decide) (by decide)))
  rw [if_neg h11]
  by_cases h12 : c = 60
  · rw [if_pos h12]
    exact stepOK_trans (stepOK_nextMatch _ _)
      (stepOK_addToken _ _ (ite_tokenType_ne_eof (by decide) (by decide)))
  rw [if_neg h12]
  by_cases h13 : c = 62
  · rw [if_pos h13]
    exact stepOK_trans (stepOK_nextMatch _ _)
      (stepOK_addToken _ _ (ite_tokenType_ne_eof (by decide) (by decide)))
  rw [if_neg h13]
  by_cases h14 : c = 47
  · rw [if_pos h14]
    by_cases hm : (ScanState.nextMatch s 47).1 = true
    · rw [if_pos hm]
      exact stepOK_trans (stepOK_nextMatch _ _) (stepOK_commentLoop _ _)
    · rw [if_neg hm]
      exact stepOK_trans (stepOK_nextMatch _ _) (stepOK_addToken _ _ (by decide))
  rw [if_neg h14]
  by_cases h15 : c = 32 ∨ c = 9 ∨ c = 13
  · rw [if_pos h15]
    exact stepOK_rfl _
  rw [if_neg h15]
  by_cases h16 : c = 10
  · rw [if_pos h16]
    exact stepOK_setLine _
  rw [if_neg h16]
  by_cases h17 : c = 34
  · rw [if_pos h17]
    exact stepOK_addString _ _
  rw [if_neg h17]
  by_cases h18 : isDigitB c = true
  · rw [if_pos h18]
    exact stepOK_addNumber _ _
  rw [if_neg h18]
  by_cases h19 : isAlphaB c = true
  · rw [if_pos h19]
    exact stepOK_addIdentifier _ _
  rw [if_neg h19]
  exact stepOK_report _ _ _ _


theorem scanToken_step (f : Nat) (s : ScanState) :
    StepOK { s with current := s.current + 1 } (scanToken f s) :=
  scanTokenD_step f _ _

theorem scanToken_inv (f : Nat) (s : ScanState) :
    (scanToken f s).source = s.source ∧
    s.current < (scanToken f s).current ∧
    (s.current < s.source.length → (scanToken f s).current ≤ s.source.length) ∧
    ∃ ts, (scanToken f s).tokens = s.tokens ++ ts ∧ ∀ t ∈ ts, t.tokenType ≠ .EOF := by
  obtain ⟨hsrc, hle, hmax, ts, htok, hts⟩ := scanToken_step f s
  refine ⟨hsrc, by simpa using hle, ?_, ⟨ts, by simpa using htok, hts⟩⟩
  intro hlt
  simp at hmax
  omega

theorem scanTokensLoop_spec : ∀ (f : Nat) (s : ScanState),
    s.source.length - s.current ≤ f → s.current ≤ s.source.length →
    (scanTokensLoop f s).source = s.source ∧
    (scanTokensLoop f s).current = s.source.length ∧
    ∃ ts, (scanTokensLoop f s).tokens = s.tokens ++ ts ∧ ∀ t ∈ ts, t.tokenType ≠ .EOF := by
  intro f
  induction f with
  | zero =>
    intro s h1 h2
    have hc : s.current = s.source.length := by omega
    rw [scanTokensLoop]
    exact ⟨rfl, hc, ⟨[], by simp, by simp⟩⟩
  | succ g ih =>
    intro s h1 h2
    rw [scanTokensLoop]
    split
    · rename_i hend
      have hc : s.current = s.source.length := by
        simp [ScanState.isAtEnd] at hend
        omega
      exact ⟨rfl, hc, ⟨[], by simp, by simp⟩⟩
    · rename_i hend
      have hlt : s.current < s.source.length := by
        simp [ScanState.isAtEnd] at hend
        omega
      obtain ⟨hsrc1, hprog, hbound, ts1, htok1, hts1⟩ :=
        scanToken_inv (s.source.length + 1) { s with start := s.current }
      obtain ⟨hsrc2, hcur2, ts2, htok2, hts2⟩ :=
        ih (scanToken (s.source.length + 1) { s with start := s.current })
          (by simp at hprog; rw [hsrc1]; simp; omega)
          (by rw [hsrc1]; simpa using hbound hlt)
      refine ⟨hsrc2.trans (by simpa using hsrc1), ?_, ⟨ts1 ++ ts2, ?_, ?_⟩⟩
      · rw [hcur2, hsrc1]
      · rw [htok2, htok1]
        simp [List.append_assoc]
      · intro t ht
        rcases List.mem_append.mp ht with hm | hm
        · exact hts1 t hm
        · exact hts2 t hm

/-- The string-consuming loop, when no closing quote remains, runs to the
very end of the source (tracking only the line counter). -/
theorem stringLoop_no_quote : ∀ (f : Nat) (s : ScanState),
    s.source.length - s.current ≤ f → s.current ≤ s.source.length →
    (∀ j, s.current ≤ j → j < s.source.length → s.source.getD j 0 ≠ 34) →
    ∃ L, stringLoop f s = { s with current := s.source.length, line := L } := by
  intro f
  induction f with
  | zero =>
    intro s h1 h2 _hq
    have hc : s.current = s.source.length := by omega
    refine ⟨s.line, ?_⟩
    rw [stringLoop, ← hc]
  | succ g ih =>
    intro s h1 h2 hq
    rw [stringLoop]
    by_cases hend : s.current < s.source.length
    · have hA : s.isAtEnd = false := by
        simp [ScanState.isAtEnd]
        omega
      have hp : s.peek ≠ 34 := by
        rw [peek_eq_getD]
        exact hq s.current le_rfl hend
      have hcond : (s.peek ≠ 34 && !s.isAtEnd) = true := by simp [hA, hp]
      rw [if_pos hcond]
      by_cases hn : (s.peek == 10) = true
      · rw [if_pos hn]
        obtain ⟨L, hL⟩ := ih (({ s with line := s.line + 1 } : ScanState).advance).2
          (by simp [ScanState.advance]; omega) (by simp [ScanState.advance]; omega)
          (by
            intro j hj1 hj2
            simp [ScanState.advance] at hj1 hj2
            exact hq j (by omega) hj2)
        refine ⟨L, ?_⟩
        rw [hL]
        rfl
      · rw [if_neg hn]
        obtain ⟨L, hL⟩ := ih (s.advance).2
          (by simp [ScanState.advance]; omega) (by simp [ScanState.advance]; omega)
          (by
            intro j hj1 hj2
            simp [ScanState.advance] at hj1 hj2
            exact hq j (by omega) hj2)
        refine ⟨L, ?_⟩
        rw [hL]
        rfl
    · have hA : s.isAtEnd = true := by
        simp [ScanState.isAtEnd]
        omega
      have hcond : ¬ ((s.peek ≠ 34 && !s.isAtEnd) = true) := by simp [hA]
      rw [if_neg hcond]
      have hc : s.current = s.source.length := by omega
      refine ⟨s.line, ?_⟩
      rw [← hc]

/-- `add_string` on an unterminated string: the scanner consumes to the end
of the source, reports "Unterminated string." through `Lox::report`, sets
the error flag, and emits no token. -/
theorem addString_unterminated (f : Nat) (s : ScanState)
    (h1 : s.source.length - s.current ≤ f) (h2 : s.current ≤ s.source.length)
    (hq : ∀ j, s.current ≤ j → j < s.source.length → s.source.getD j 0 ≠ 34) :
    ∃ L, addString f s =
      { s with
          current := s.source.length,
          line := L,
          errLines := s.errLines ++
            ["[line " ++ toString L ++ "] Error: " ++ "Unterminated string." ++ ""],
          hasError := true } := by
  obtain ⟨L, hL⟩ := stringLoop_no_quote f s h1 h2 hq
  refine ⟨L, ?_⟩
  simp only [addString]
  rw [hL]
  have hA : ({ s with current := s.source.length, line := L } : ScanState).isAtEnd = true := by
    simp [ScanState.isAtEnd]
  rw [if_pos hA]
  rfl

/-- `visit_block_stmt` runs exactly the same declaration fold as
`interpret`: a block introduces no scope of its own. -/
theorem blockFold_eq : ∀ (fuel : Nat) (st : IState) (decls : List Declaration),
    visitBlockStmt fuel st decls = interpretDecls fuel st decls := by
  intro fuel
  induction fuel with
  | zero => intro st decls; rfl
  | succ f ih =>
    intro st decls
    cases decls with
    | nil => rfl
    | cons d rest =>
      cases d with
      | varDecl e => simp only [visitBlockStmt, interpretDecls, ih]
      | statement s => simp only [visitBlockStmt, interpretDecls, ih]

end Lox

namespace Lox

/-- C1: the claim says evaluating `"1 + 2 * 3;"` parses with `*` binding
tighter than `+` and prints `7`.  The parse tree is indeed
`1 + (2 * 3)` and reducing that expression yields the number `7`, but the
`evaluate` run panics: `visit_stmt` routes the expression statement to
`visit_expr_stmt`, whose catch-all arm is `unreachable!()`, so nothing is
printed. -/
theorem evaluate_one_plus_two_times_three :
    parsedDecls (scanTokens (strToBytes "1 + 2 * 3;")) =
      some [.statement (.exprStmt (.binary (.literal (.number 1)) plusTok
        (.binary (.literal (.number 2)) starTok (.literal (.number 3)))))] ∧
    visitPrintStmt 10 Environment.new
      (.binary (.literal (.number 1)) plusTok
        (.binary (.literal (.number 2)) starTok (.literal (.number 3)))) =
      .ok (Environment.new, .literal (.number 7)) ∧
    runEvaluate "1 + 2 * 3;" = .panicked := by
  refine ⟨rfl, rfl, by decide⟩

/-- C2 (counterexample): `!=` on a `Number` and a `String` does not return
`true`; it falls through to the catch-all arm, which only special-cases
`==`, and produces the RuntimeError "Invalid operands for binary operator.",
so the run exits 70. -/
theorem bang_equal_mismatch_errors :
    visitBinary 1 Environment.new bangeqTok (.literal (.number 1)) (.literal (.string "a")) =
      .error (.runtime "Invalid operands for binary operator." .BANG_EQUAL) ∧
    runEvaluate "print 1 != \"a\";" =
      .exited 70 ["print (!= 1.0 a);", "Invalid operands for binary operator."] [] := by
  exact ⟨rfl, by decide⟩

/-- C2 (amended): for operand pairs that are not two `Number`s and not two
`String`s (in particular mismatched runtime types such as `Number` vs
`String`), `==` evaluates to `Boolean false` without a RuntimeError, but
`!=` produces the RuntimeError "Invalid operands for binary operator."
rather than `true`. -/
theorem equality_mismatched_types (fuel : Nat) (env : Environment) (a b : Object)
    (t1 t2 : Token) (h1 : t1.tokenType = .EQUAL_EQUAL) (h2 : t2.tokenType = .BANG_EQUAL)
    (hn : bothNumbers a b = false) (hs : bothStrings a b = false) :
    visitBinary (fuel + 1) env t1 (.literal a) (.literal b) = .ok (env, .boolean false) ∧
    visitBinary (fuel + 1) env t2 (.literal a) (.literal b) =
      .error (.runtime "Invalid operands for binary operator." .BANG_EQUAL) := by
  cases a <;> cases b <;>
    simp_all [visitBinary, ensureLiteral, bothNumbers, bothStrings]

/-- C2 witness: `1 == "a"` is `false` at a concrete mismatched pair. -/
theorem equality_mismatched_types_witness :
    visitBinary 1 Environment.new eqeqTok (.literal (.number 1)) (.literal (.string "a")) =
      .ok (Environment.new, .boolean false) :=
  (equality_mismatched_types 0 Environment.new (.number 1) (.string "a")
    eqeqTok bangeqTok rfl rfl rfl rfl).1

/-- C3: `visit_binary` with `/` and a right operand of exactly zero produces
the RuntimeError "Division by zero." for every left operand (no IEEE
infinity).  However, the scenario `"10 / 0;"` under `evaluate` does not exit
70: the expression statement hits `visit_expr_stmt`'s `unreachable!()` and
panics before the division is ever evaluated.  The intended behaviour shows
on the `print` path: `"print 10 / 0;"` exits 70 with the message. -/
theorem division_by_zero_behavior :
    (∀ (fuel : Nat) (env : Environment) (t : Token) (x : ℚ), t.tokenType = .SLASH →
      visitBinary (fuel + 1) env t (.literal (.number x)) (.literal (.number 0)) =
        .error (.runtime "Division by zero." .SLASH)) ∧
    runEvaluate "10 / 0;" = .panicked ∧
    runEvaluate "print 10 / 0;" =
      .exited 70 ["print (/ 10.0 0.0);", "Division by zero."] [] := by
  refine ⟨?_, by decide, by decide⟩
  intro fuel env t x ht
  simp [visitBinary, ensureLiteral, ht]

/-- C3 witness: the division-by-zero error at the concrete operands of the
scenario. -/
theorem division_by_zero_behavior_witness :
    visitBinary 1 Environment.new slashTok (.literal (.number 10)) (.literal (.number 0)) =
      .error (.runtime "Division by zero." .SLASH) :=
  division_by_zero_behavior.1 0 Environment.new slashTok 10 rfl

/-- C4 (counterexample): `"x"` was never declared in any reachable scope
(looking it up fails), yet `Environment::set` succeeds and creates a new
binding instead of failing with an undefined-variable error. -/
theorem set_undeclared_succeeds :
    Environment.new.get "x" = .error (.runtime "Undefined variable x." .VAR) ∧
    (Environment.new.set "x" (.number 1)).get "x" = .ok (.number 1) := by
  exact ⟨rfl, rfl⟩

/-- C4 (amended): `Environment::set` — the only assignment operation — is
infallible: for every environment state and every name, declared or not, it
creates or overwrites the binding, and a subsequent lookup returns the
assigned value. -/
theorem assign_creates_or_overwrites (env : Environment) (id : String) (o : Object) :
    (env.set id o).get id = .ok o :=
  get_set_self env id o

/-- C5: logical operators short-circuit exactly as claimed: `or` returns
the left value without touching the right operand when the left is truthy,
`and` does so when the left is falsy, and otherwise the right operand's
evaluation provides the result.  In particular `false and (1/0)` is `false`
and `true or (1/0)` is `true`, while evaluating `(1/0)` by itself raises
the division-by-zero RuntimeError. -/
theorem logical_short_circuit :
    (∀ (fuel : Nat) (env env' : Environment) (l r : Expr) (v : Object) (t : Token),
      t.tokenType = .OR → ensureLiteral fuel env l = .ok (env', v) → isTruthy v = true →
        visitLogical (fuel + 1) env l t r = .ok (env', .literal v)) ∧
    (∀ (fuel : Nat) (env env' : Environment) (l r : Expr) (v : Object) (t : Token),
      t.tokenType = .AND → ensureLiteral fuel env l = .ok (env', v) → isTruthy v = false →
        visitLogical (fuel + 1) env l t r = .ok (env', .literal v)) ∧
    (∀ (fuel : Nat) (env env' : Environment) (l r : Expr) (v : Object) (t : Token),
      t.tokenType = .OR → ensureLiteral fuel env l = .ok (env', v) → isTruthy v = false →
        visitLogical (fuel + 1) env l t r = visitPrintStmt fuel env' r) ∧
    (∀ (fuel : Nat) (env env' : Environment) (l r : Expr) (v : Object) (t : Token),
      t.tokenType = .AND → ensureLiteral fuel env l = .ok (env', v) → isTruthy v = true →
        visitLogical (fuel + 1) env l t r = visitPrintStmt fuel env' r) ∧
    visitExprStmt 10 Environment.new (.logical (.literal (.boolean false)) andTok
      (.grouping (.binary (.literal (.number 1)) slashTok (.literal (.number 0))))) =
      .ok (Environment.new, .literal (.boolean false)) ∧
    visitExprStmt 10 Environment.new (.logical (.literal (.boolean true)) orTok
      (.grouping (.binary (.literal (.number 1)) slashTok (.literal (.number 0))))) =
      .ok (Environment.new, .literal (.boolean true)) ∧
    visitPrintStmt 10 Environment.new
      (.grouping (.binary (.literal (.number 1)) slashTok (.literal (.number 0)))) =
      .error (.runtime "Division by zero." .SLASH) := by
  refine ⟨?_, ?_, ?_, ?_, rfl, rfl, rfl⟩
  · intro fuel env env' l r v t ht hl hv
    simp [visitLogical, ht, hl, hv]
  · intro fuel env env' l r v t ht hl hv
    simp [visitLogical, ht, hl, hv]
  · intro fuel env env' l r v t ht hl hv
    simp [visitLogical, ht, hl, hv]
  · intro fuel env env' l r v t ht hl hv
    simp [visitLogical, ht, hl, hv]

/-- C5 witness: `true or q` returns `true` immediately (the right operand,
an unbound variable that would error if evaluated, is never evaluated). -/
theorem logical_short_circuit_witness :
    visitLogical 1 Environment.new (.literal (.boolean true)) orTok (.var "q") =
      .ok (Environment.new, .literal (.boolean true)) :=
  logical_short_circuit.1 0 Environment.new Environment.new (.literal (.boolean true))
    (.var "q") (.boolean true) orTok rfl rfl rfl

/-- C8: every expression statement whose expression is neither an `Assign`
nor a `Logical` node (for example `1 + 2;`) sends `visit_expr_stmt` into its
`unreachable!()` arm, i.e. the evaluator panics instead of returning a value
or a RuntimeError; the whole `evaluate` run on `"1 + 2;"` panics. -/
theorem expr_stmt_unreachable_panic (fuel : Nat) (env : Environment) (e : Expr)
    (h : handledByExprStmt e = false) :
    visitExprStmt (fuel + 1) env e = .error .panicked ∧
    runEvaluate "1 + 2;" = .panicked := by
  refine ⟨?_, by decide⟩
  cases e <;> simp_all [visitExprStmt, handledByExprStmt]

/-- C8 witness: the panic at the concrete statement `1 + 2;`. -/
theorem expr_stmt_unreachable_panic_witness :
    visitExprStmt 1 Environment.new
      (.binary (.literal (.number 1)) plusTok (.literal (.number 2))) = .error .panicked :=
  (expr_stmt_unreachable_panic 0 Environment.new
    (.binary (.literal (.number 1)) plusTok (.literal (.number 2))) rfl).1

/-- C9: the interpreter builds exactly one `Environment` (in
`Interpreter::new`) with `enclosing == None`, and evaluation keeps the
scope chain flat: `Environment::set` preserves the chain shape, on every
successful run the final environment still has `enclosing == None`,
executing a `Block` is the very same declaration fold the top level runs
(no nested scope), a variable declared inside a block is bound in the one
shared environment (so it stays visible after the block exits), an inner
declaration of an existing name overwrites the single binding, and the §8
scoping scenario accordingly prints `2.0`. -/
theorem single_flat_environment :
    Environment.new.enclosing = none ∧
    (∀ (env : Environment) (id : String) (o : Object),
      ((env.set id o).enclosing).isNone = (env.enclosing).isNone) ∧
    (∀ (fuel : Nat) (st : IState) (decls : List Declaration),
      visitStmt (fuel + 1) st (.block decls) = visitBlockStmt fuel st decls) ∧
    (∀ (fuel : Nat) (st : IState) (decls : List Declaration),
      visitBlockStmt fuel st decls = interpretDecls fuel st decls) ∧
    (∀ (fuel : Nat) (decls : List Declaration) (st : IState) (exprs : List Expr),
      interpret fuel decls = .ok (st, exprs) → st.env.enclosing = none) ∧
    (∀ (fuel : Nat) (st : IState) (id : String) (o : Object) (vt et : Token),
      visitStmt (fuel + 3) st
          (.block [.varDecl (.unary vt (.binary (.var id) et (.literal o)))]) =
        .ok (⟨st.env.set id o, st.out⟩, [.var id])) ∧
    (∀ (env : Environment) (id : String) (o : Object), (env.set id o).get id = .ok o) ∧
    runEvaluate "var a = 1; { var a = 2; } print a;" =
      .exited 0 ["(var (= variable a 1.0));", " { (var (= variable a 2.0)); }",
        "print variable a;", "variable a", "variable a", "2.0"] [] := by
  refine ⟨rfl, set_enclosing_isNone, fun fuel st decls => rfl, blockFold_eq, ?_,
    fun fuel st id o vt et => rfl, get_set_self, by decide⟩
  intro fuel decls st exprs h
  have hh := interpretDecls_flat fuel ⟨Environment.new, []⟩ decls st exprs h
  simpa [Environment.new, Environment.enclosing, Option.isNone_iff_eq_none] using hh

/-- C9 witness: a concrete successful run whose final environment has no
enclosing scope. -/
theorem single_flat_environment_witness :
    (⟨Environment.new, []⟩ : IState).env.enclosing = none :=
  single_flat_environment.2.2.2.2.1 1 [] ⟨Environment.new, []⟩ [] rfl

/-- C7: a string left unterminated at the end of input is reported as
"Unterminated string." through the error reporter (no STRING token is
emitted), the scanner still finishes normally with its EOF token, and
tokenizing `"abc` (with an opening quote) exits with code 65 and that
message on stderr. -/
theorem unterminated_string_reporting :
    (∀ (f : Nat) (s : ScanState),
      s.source.length - s.current ≤ f → s.current ≤ s.source.length →
      (∀ j, s.current ≤ j → j < s.source.length → s.source.getD j 0 ≠ 34) →
      ∃ L, addString f s =
        { s with
            current := s.source.length,
            line := L,
            errLines := s.errLines ++
              ["[line " ++ toString L ++ "] Error: " ++ "Unterminated string." ++ ""],
            hasError := true }) ∧
    (scanTokens (strToBytes "\"abc")).tokens = [⟨.EOF, [], "null", 1⟩] ∧
    (scanTokens (strToBytes "\"abc")).hasError = true ∧
    runTokenize "\"abc" = .exited 65 ["EOF  null"] ["[line 1] Error: Unterminated string."] := by
  exact ⟨addString_unterminated, by decide, by decide, by decide⟩

/-- C7 witness: the unterminated-string report on the concrete source
`"abc`, entered right after the opening quote. -/
theorem unterminated_string_reporting_witness :
    ∃ (L : Nat) (s' : ScanState),
      addString 4 (⟨[34, 97, 98, 99], 0, 1, 1, [], [], false⟩ : ScanState) = s' ∧
      s'.hasError = true ∧ s'.tokens = [] ∧
      s'.errLines = ["[line " ++ toString L ++ "] Error: " ++ "Unterminated string." ++ ""] := by
  obtain ⟨L, hL⟩ := unterminated_string_reporting.1 4 ⟨[34, 97, 98, 99], 0, 1, 1, [], [], false⟩
    (by decide) (by decide)
    (by
      intro j h1 h2
      simp at h2
      interval_cases j <;> decide)
  exact ⟨L, _, hL, rfl, rfl, rfl⟩

/-- C10: scanning always terminates: every `scan_token` call advances the
cursor by at least one byte and, started within bounds, stays within the
source bounds; with the driver's fuel the loop reaches the end of the
source on every input, and the resulting token list ends with exactly one
EOF token carrying the final line number. -/
theorem scanner_terminates_with_eof :
    (∀ (f : Nat) (s : ScanState),
      s.current < (scanToken f s).current ∧
      (s.current < s.source.length → (scanToken f s).current ≤ s.source.length) ∧
      (scanToken f s).source = s.source) ∧
    (∀ src : List Nat,
      (scanTokens src).current = src.length ∧
      ∃ body, (scanTokens src).tokens = body ++ [⟨.EOF, [], "null", (scanTokens src).line⟩] ∧
        ∀ t ∈ body, t.tokenType ≠ .EOF) := by
  constructor
  · intro f s
    obtain ⟨hsrc, hlt, hb, -⟩ := scanToken_inv f s
    exact ⟨hlt, hb, hsrc⟩
  · intro src
    obtain ⟨hsrc, hcur, ts, htok, hts⟩ :=
      scanTokensLoop_spec (src.length + 1) (initScan src) (by simp [initScan]) (by simp [initScan])
    refine ⟨hcur, ⟨(scanTokensLoop (src.length + 1) (initScan src)).tokens, rfl, ?_⟩⟩
    intro t ht
    rw [htok] at ht
    simp [initScan] at ht
    exact hts t ht

/-- C10 witness: a concrete in-bounds step of the scanner. -/
theorem scanner_terminates_with_eof_witness :
    (scanToken 2 (initScan [52])).current ≤ (initScan [52]).source.length :=
  (scanner_terminates_with_eof.1 2 (initScan [52])).2.1 (by decide)

end Lox
